import Mathlib

/-!
# PNAB Monte Carlo rotor search and configuration validation

A shallow embedding of `src/SearchTypes/MonteCarloRotorSearch.cpp` and of
`Category::validate` from `src/FileParser.cpp`.

Modelling conventions.

* A C++ `double` is an element of a type `α`.  Code that only compares doubles
  is written over an ordered type; code that does arithmetic is written over a
  linearly ordered field, so that it runs on `ℚ` and is reasoned about on `ℝ`.
  The value `std::numeric_limits<double>::infinity()` is the top element of
  `WithTop α`.  Rounding, overflow to infinity and NaN are not modelled.
* The `<cmath>` functions `sqrt` and `exp` are parameters of the code that calls
  them; theorems instantiate them with `Real.sqrt` and `Real.exp`.
* `unsigned` is a natural number reduced modulo `2 ^ 32`.
* A raw `double *` that the code only reads through is a function from offsets
  to values; a buffer the code allocates itself (`new double[n]`) is a list.
* `exit(1)`, a read past the end of a vector, and a loop that has not finished
  within its fuel are the three ways a modelled computation stops early.
* Library and collaborator code that is not part of the two source files
  (OpenBabel, the chain builder, the random engine, stream formatting) is a
  parameter, collected in `Services`.
-/

namespace PNAB

/-! ## Outcomes -/

/-- Ways in which a modelled computation ends without returning to its caller. -/
inductive Halt where
  /-- The process called `exit(1)`. -/
  | exit1
  /-- The code indexed a `std::vector` past its end. -/
  | badIndex
  /-- A `while` loop was still running when the fuel ran out. -/
  | outOfFuel
  deriving DecidableEq, Repr

/-! ## Records -/

/-- Modelled from the spec: the `ConformerData` record, whose declaration is in a
header outside the two source files.  The fields are the ones the search code
reads and writes: sequence index, closure distance, the energy components, the
RMSD, the full-chain buffer `coords` with its presence flag, and the retained
monomer buffer `monomer_coord`. -/
structure ConformerData (α : Type) where
  coords : List α
  monomer_coord : List α
  index : Nat
  distance : WithTop α
  total_energy : α
  bondE : α
  angleE : α
  torsionE : α
  VDWE : α
  totTorsionE : α
  rmsd : α
  chain_coords_present : Bool

/-- Modelled from the spec: `ConformerData::operator<`, the ranking comparison that
`std::sort` uses on the ledger ("primarily total energy, ascending; lower energy
ranks first").  Its declaration is in a header outside the two source files. -/
def ConformerData.lt {α : Type} [LT α] [DecidableRel (fun a b : α => a < b)]
    (a b : ConformerData α) : Bool :=
  decide (a.total_energy < b.total_energy)

/-! ## Energy filter: `MonteCarloRotorSearch::isPassingEFilter` -/

/-- The vector `cur_vals` built at the top of `isPassingEFilter`
(lines 133-134): total, angle, bond, van der Waals and total torsion energy. -/
def curVals {α : Type} (conf_data : ConformerData α) : List α :=
  [conf_data.total_energy, conf_data.angleE, conf_data.bondE,
   conf_data.VDWE, conf_data.totTorsionE]

/-- The loop of lines 136-138, `for (i = 0; i < max_vals.size(); ++i)
if (max_vals[i] < cur_vals[i]) return false;`, followed by `return true`.
The two lists are walked by position; a ceiling with no component opposite it
is a read of `cur_vals` past its end. -/
def eFilterLoop {α : Type} [LT α] [DecidableRel (fun a b : α => a < b)] :
    List α → List α → Except Halt Bool
  | [], _ => .ok true
  | _ :: _, [] => .error Halt.badIndex
  | m :: ms, c :: cs => if m < c then .ok false else eFilterLoop ms cs

/-- The method `isPassingEFilter`, lines 132-140; `energy_filter` is
`runtime_params_.energy_filter`. -/
def isPassingEFilter {α : Type} [LT α] [DecidableRel (fun a b : α => a < b)]
    (energy_filter : List α) (conf_data : ConformerData α) : Except Halt Bool :=
  eFilterLoop energy_filter (curVals conf_data)

/-! ## Configuration validation: `Category::validate` -/

/-- Modelled from the spec: a registered configuration field, as far as
`Category::validate` looks at it through `getName()`, `isSet()` and
`isRequired()`.  The `Field` class template is declared in a header outside the
two source files. -/
structure Field (τ : Type) where
  name : String
  is_set : Bool
  is_required : Bool
  data : τ

/-- The six field vectors of a `Category` that `validate` iterates over. -/
structure Category (α : Type) where
  name : String
  size_fields : List (Field Nat)
  size_vec_fields : List (Field (List Nat))
  string_fields : List (Field String)
  string_vec_fields : List (Field (List String))
  double_fields : List (Field α)
  double_vec_fields : List (Field (List α))

/-- The state threaded through `validate`: the text sent to `cout` and the
local `error_found`. -/
structure ValidateState where
  cout : List String
  error_found : Bool
  deriving DecidableEq, Repr

/-- One inner loop of `validate`, for instance lines 243-248:
`for (auto sf : fields) if (!sf.isSet() & sf.isRequired()) { cout << ...;
error_found = true; }`. -/
def validateFields {τ : Type} (fields : List (Field τ)) (st : ValidateState) :
    ValidateState :=
  fields.foldl
    (fun acc sf =>
      if (!sf.is_set) && sf.is_required then
        { cout := acc.cout ++ ["Required field \"" ++ sf.name ++ "\" is not set."],
          error_found := true }
      else acc)
    st

/-- The method `Category::validate`, lines 235-300: the six cases of the
`switch` run in the order of the `types` vector, then `if (error_found)
exit(1);`.  A normal return hands back what was printed. -/
def Category.validate {α : Type} (c : Category α) : Except Halt (List String) :=
  let st0 : ValidateState := { cout := [], error_found := false }
  let st1 := validateFields c.size_fields st0
  let st2 := validateFields c.size_vec_fields st1
  let st3 := validateFields c.string_fields st2
  let st4 := validateFields c.string_vec_fields st3
  let st5 := validateFields c.double_fields st4
  let st6 := validateFields c.double_vec_fields st5
  if st6.error_found then .error Halt.exit1 else .ok st6.cout

/-- Some field of the list is required and has not been set. -/
def missingRequired {τ : Type} (fields : List (Field τ)) : Prop :=
  ∃ sf ∈ fields, sf.is_required = true ∧ sf.is_set = false

/-- Some registered field of the category, of any of the six types, is required
and has not been set. -/
def Category.hasMissingRequired {α : Type} (c : Category α) : Prop :=
  missingRequired c.size_fields ∨ missingRequired c.size_vec_fields ∨
  missingRequired c.string_fields ∨ missingRequired c.string_vec_fields ∨
  missingRequired c.double_fields ∨ missingRequired c.double_vec_fields

/-! ## Geometry: OpenBabel vectors and `measureDistance` -/

/-- OpenBabel's `vector3`: three doubles. -/
structure vector3 (α : Type) where
  x : α
  y : α
  z : α
  deriving DecidableEq, Repr

/-- OpenBabel's `matrix3x3`; `eij` is `Get(i, j)`, the entry in row `i` and
column `j`. -/
structure matrix3x3 (α : Type) where
  e00 : α
  e01 : α
  e02 : α
  e10 : α
  e11 : α
  e12 : α
  e20 : α
  e21 : α
  e22 : α
  deriving DecidableEq, Repr

/-- OpenBabel's `vector3::operator*=(const matrix3x3 &m)`, which replaces the
vector `v` by the product `m * v`. -/
def vector3.mulMatrix {α : Type} [Add α] [Mul α] (v : vector3 α) (m : matrix3x3 α) :
    vector3 α :=
  { x := v.x * m.e00 + v.y * m.e01 + v.z * m.e02
    y := v.x * m.e10 + v.y * m.e11 + v.z * m.e12
    z := v.x * m.e20 + v.y * m.e21 + v.z * m.e22 }

/-- OpenBabel's `vector3::operator+=(const vector3 &)`. -/
def vector3.add {α : Type} [Add α] (v w : vector3 α) : vector3 α :=
  { x := v.x + w.x, y := v.y + w.y, z := v.z + w.z }

/-- OpenBabel's `vector3::distSq`: the squared distance between two points. -/
def vector3.distSq {α : Type} [Add α] [Sub α] [Mul α] (v w : vector3 α) : α :=
  (v.x - w.x) * (v.x - w.x) + (v.y - w.y) * (v.y - w.y) + (v.z - w.z) * (v.z - w.z)

/-- The number of values of an `unsigned`. -/
def UINT_RANGE : Nat := 2 ^ 32

/-- The `unsigned` expression `3 * (a - 1)` of line 123: subtraction and
multiplication wrap modulo `2 ^ 32`. -/
def tripletOffset (a : Nat) : Nat :=
  (3 * ((a + UINT_RANGE - 1) % UINT_RANGE)) % UINT_RANGE

/-- The constructor calls of lines 124-125,
`vector3(coords[i], coords[i + 1], coords[i + 2])` for an `unsigned` offset `i`;
the sums `i + 1` and `i + 2` are `unsigned` too. -/
def readPoint {α : Type} (coords : Nat → α) (i : Nat) : vector3 α :=
  { x := coords i
    y := coords ((i + 1) % UINT_RANGE)
    z := coords ((i + 2) % UINT_RANGE) }

/-- The method `measureDistance`, lines 122-130.  The members `step_rot_` and
`step_translate_` are arguments, and so is the `sqrt` of `<cmath>`. -/
def measureDistance {α : Type} [Add α] [Sub α] [Mul α] (sqrt : α → α)
    (step_rot_ : matrix3x3 α) (step_translate_ : vector3 α)
    (coords : Nat → α) (head tail : Nat) : α :=
  let hi := tripletOffset head
  let ti := tripletOffset tail
  let head_coord := readPoint coords hi
  let tail_coord := readPoint coords ti
  let tail_coord := tail_coord.mulMatrix step_rot_
  let tail_coord := tail_coord.add step_translate_
  sqrt (head_coord.distSq tail_coord)

/-- The rigid motion `p ↦ m * p + t`, written with the operations
`measureDistance` applies to the tail atom. -/
def rigidMotion {α : Type} [Add α] [Mul α] (m : matrix3x3 α) (t : vector3 α)
    (p : vector3 α) : vector3 α :=
  (p.mulMatrix m).add t

/-- The transpose of a matrix. -/
def matrix3x3.transpose {α : Type} (m : matrix3x3 α) : matrix3x3 α :=
  { e00 := m.e00, e01 := m.e10, e02 := m.e20
    e10 := m.e01, e11 := m.e11, e12 := m.e21
    e20 := m.e02, e21 := m.e12, e22 := m.e22 }

/-- The product of two matrices. -/
def matrix3x3.mul {α : Type} [Add α] [Mul α] (a b : matrix3x3 α) : matrix3x3 α :=
  { e00 := a.e00 * b.e00 + a.e01 * b.e10 + a.e02 * b.e20
    e01 := a.e00 * b.e01 + a.e01 * b.e11 + a.e02 * b.e21
    e02 := a.e00 * b.e02 + a.e01 * b.e12 + a.e02 * b.e22
    e10 := a.e10 * b.e00 + a.e11 * b.e10 + a.e12 * b.e20
    e11 := a.e10 * b.e01 + a.e11 * b.e11 + a.e12 * b.e21
    e12 := a.e10 * b.e02 + a.e11 * b.e12 + a.e12 * b.e22
    e20 := a.e20 * b.e00 + a.e21 * b.e10 + a.e22 * b.e20
    e21 := a.e20 * b.e01 + a.e21 * b.e11 + a.e22 * b.e21
    e22 := a.e20 * b.e02 + a.e21 * b.e12 + a.e22 * b.e22 }

/-- The identity matrix. -/
def matrix3x3.identity {α : Type} [Zero α] [One α] : matrix3x3 α :=
  { e00 := 1, e01 := 0, e02 := 0
    e10 := 0, e11 := 1, e12 := 0
    e20 := 0, e21 := 0, e22 := 1 }

/-- The determinant of a matrix. -/
def matrix3x3.det {α : Type} [Add α] [Sub α] [Mul α] (m : matrix3x3 α) : α :=
  m.e00 * (m.e11 * m.e22 - m.e12 * m.e21) - m.e01 * (m.e10 * m.e22 - m.e12 * m.e20)
    + m.e02 * (m.e10 * m.e21 - m.e11 * m.e20)

/-- A rotation matrix: orthogonal, with determinant one. -/
def matrix3x3.IsRotation {α : Type} [Ring α] (m : matrix3x3 α) : Prop :=
  m.transpose.mul m = matrix3x3.identity ∧ m.det = 1

/-- The matrix of Mathlib that has the same entries. -/
def matrix3x3.toMatrix {α : Type} (m : matrix3x3 α) : Matrix (Fin 3) (Fin 3) α :=
  Matrix.of ![![m.e00, m.e01, m.e02], ![m.e10, m.e11, m.e12], ![m.e20, m.e21, m.e22]]

/-- The coordinate vector of Mathlib that has the same components. -/
def vector3.toFun {α : Type} (v : vector3 α) : Fin 3 → α :=
  ![v.x, v.y, v.z]

/-- A coordinate vector as a point of Euclidean three-space; a reference notion
for stating distances, not part of the code. -/
noncomputable def euclideanPoint (f : Fin 3 → ℝ) : EuclideanSpace ℝ (Fin 3) :=
  (WithLp.equiv 2 (Fin 3 → ℝ)).symm f

/-- The half turn about the z axis. -/
def halfTurnZ (α : Type) [Ring α] : matrix3x3 α :=
  { e00 := -1, e01 := 0, e02 := 0
    e10 := 0, e11 := -1, e12 := 0
    e20 := 0, e21 := 0, e22 := 1 }

/-- The quarter turn about the z axis. -/
def quarterTurnZ (α : Type) [Ring α] : matrix3x3 α :=
  { e00 := 0, e01 := -1, e02 := 0
    e10 := 1, e11 := 0, e12 := 0
    e20 := 0, e21 := 0, e22 := 1 }

/-- The coordinate triplet that starts at offset `i` of a flat buffer, with
offsets as natural numbers. -/
def pointAt {α : Type} (coords : Nat → α) (i : Nat) : vector3 α :=
  { x := coords i, y := coords (i + 1), z := coords (i + 2) }

/-- The closure distance in the words of the specification: the Euclidean
distance between the point at `coords[3(head-1) .. 3(head-1)+2]` and the point
`step_rot_ * coords[3(tail-1) .. 3(tail-1)+2] + step_translate_`. -/
noncomputable def closureDistanceSpec (step_rot_ : matrix3x3 ℝ) (step_translate_ : vector3 ℝ)
    (coords : Nat → ℝ) (head tail : Nat) : ℝ :=
  dist (euclideanPoint (pointAt coords (3 * (head - 1))).toFun)
    (euclideanPoint
      (step_rot_.toMatrix.mulVec (pointAt coords (3 * (tail - 1))).toFun
        + step_translate_.toFun))

/-- A buffer whose only non-zero entry is at offset 2. -/
def bufferOneAtTwo (α : Type) [Zero α] [One α] : Nat → α :=
  fun i => if i = 2 then 1 else 0

/-- The buffer of two atoms that both sit at the origin. -/
def bufferOrigin (α : Type) [Zero α] : Nat → α :=
  fun _ => 0

/-- The buffer of two atoms that both sit at `(1, 0, 0)`. -/
def bufferShifted (α : Type) [Zero α] [One α] : Nat → α :=
  fun i => if i = 0 ∨ i = 3 then 1 else 0

/-- The buffer of two atoms that both sit at `(0, 1, 5)`, the image of
`(1, 0, 0)` under a quarter turn about the z axis followed by a lift by 5. -/
def bufferTurned (α : Type) [Zero α] [One α] [OfNat α 5] : Nat → α :=
  fun i => if i = 1 ∨ i = 4 then 1 else if i = 2 ∨ i = 5 then 5 else 0

/-! ## Collaborators, configuration and state of the search -/

/-- Code the search calls that lies outside the two source files.  `ρ` is the
type of a rotor (`OBRotor`), `γ` the state of the random engine `rng_`.

* `sqrt`, `exp`: the `<cmath>` functions;
* `dist`, `one_zero_dist`: a draw from the two `uniform_real_distribution`s of
  lines 48-49, returning the value and the advanced engine;
* `SetToAngle`: `OBRotor::SetToAngle(coords, angle)`, which rewrites the buffer;
* `generateConformerData`: `Chain::generateConformerData(coords, helical_params_)`;
* `writePDB`: the lines `conv_.Write(&test_chain_)` produces once the chain has
  been given the coordinates;
* `showDouble`: the text `operator<<` writes for a finite `double`. -/
structure Services (α ρ γ : Type) where
  sqrt : α → α
  exp : α → α
  dist : γ → α × γ
  one_zero_dist : γ → α × γ
  SetToAngle : ρ → (Nat → α) → α → (Nat → α)
  generateConformerData : (Nat → α) → ConformerData α
  writePDB : List α → List String
  showDouble : α → String

/-- What `run` has fixed before its loop starts (lines 34-63) and the members
set by the constructor: the step transform, `runtime_params_.max_distance`,
`runtime_params_.energy_filter`, `runtime_params_.num_steps`,
`monomer_num_coords_`, the linker atoms `head` and `tail`, and the rotors of the
rotor list in iteration order. -/
structure SearchConfig (α ρ : Type) where
  step_rot_ : matrix3x3 α
  step_translate_ : vector3 α
  max_distance : α
  energy_filter : List α
  num_steps : Nat
  monomer_num_coords_ : Nat
  head : Nat
  tail : Nat
  rotors : List ρ

/-- What changes while the search runs: the random engine `rng_`, the monomer
buffer `coords`, the ledger `conf_data_vec_`, and the files written so far (most
recent first), each a name with its lines. -/
structure SearchState (α γ : Type) where
  rng_ : γ
  coords : Nat → α
  conf_data_vec_ : List (ConformerData α)
  files : List (String × List String)

/-- Opening a file for output and writing `content` to it. -/
def writeFile (files : List (String × List String)) (name : String) (content : List String) :
    List (String × List String) :=
  (name, content) :: files

/-- The current content of the file `name`, if it has been written. -/
def readFile (files : List (String × List String)) (name : String) : Option (List String) :=
  files.lookup name

/-! ## Ledger: `MonteCarloRotorSearch::print` -/

/-- Modelled from the spec: `calcRMSD(ref, conf, size)`, which is neither declared
nor defined in the two source files.  Section 4.5: "given two equal-length flat
coordinate buffers (3 components per atom), compute sqrt(mean of squared
per-axis differences) across all atoms".  The mean is taken over the `size`
per-axis differences; a monomer has at least its two linker atoms, so `size`
is positive, and the quotient by zero is left as the field defines it. -/
def calcRMSD {α : Type} [DivisionRing α] (sqrt : α → α) (ref conf : List α) (size : Nat) : α :=
  sqrt (((List.range size).map
    (fun i => (ref.getD i 0 - conf.getD i 0) * (ref.getD i 0 - conf.getD i 0))).sum / size)

/-- The call `std::sort(conf_data_vec_.begin(), conf_data_vec_.end())` of line
178, which orders by `operator<`.  The standard promises a permutation in which
no element is less than an earlier one and leaves the order of equal elements
open; insertion sort is one such function, and the theorems use nothing else
about it. -/
def stdSort {α : Type} [LT α] [DecidableRel (fun a b : α => a < b)]
    (v : List (ConformerData α)) : List (ConformerData α) :=
  v.insertionSort (fun a b => ConformerData.lt b a = false)

/-- The header the two statements of lines 176-177 write, ended by `endl`. -/
def csvHeader : String :=
  "Conformer Index, Energy (kcal/mol), Distance (A), Bond Energy, Angle Energy,"
    ++ " Torsion Energy, VDW Energy, Total Torsion Energy, RMSD (A)"

/-- The text `operator<<` writes for a distance, which may be infinite. -/
def showDistance {α : Type} (showDouble : α → String) (d : WithTop α) : String :=
  match (d : Option α) with
  | none => "inf"
  | some x => showDouble x

/-- One data row of the summary table, lines 184-186. -/
def csvRow {α : Type} (showDouble : α → String) (v : ConformerData α) : String :=
  toString v.index ++ ", " ++ showDouble v.total_energy ++ ", "
    ++ showDistance showDouble v.distance ++ ", " ++ showDouble v.bondE ++ ", "
    ++ showDouble v.angleE ++ ", " ++ showDouble v.torsionE ++ ", " ++ showDouble v.VDWE ++ ", "
    ++ showDouble v.totTorsionE ++ ", " ++ showDouble v.rmsd

/-- The name `"conformer_" << index << ".pdb"` of line 158. -/
def conformerFileName (index : Nat) : String :=
  "conformer_" ++ toString index ++ ".pdb"

/-- Lines 170-171: `delete conf_data.coords; conf_data.chain_coords_present =
false;`.  The freed buffer is left empty. -/
def releaseChain {α : Type} (conf_data : ConformerData α) : ConformerData α :=
  { conf_data with coords := [], chain_coords_present := false }

/-- Line 183: `v.rmsd = calcRMSD(ref, v.monomer_coord, monomer_num_coords_)`. -/
def setRmsd {α : Type} [DivisionRing α] (sqrt : α → α) (monomer_num_coords_ : Nat)
    (ref : List α) (v : ConformerData α) : ConformerData α :=
  { v with rmsd := calcRMSD sqrt ref v.monomer_coord monomer_num_coords_ }

/-- The method `print`, lines 142-189.  A record without chain coordinates ends
the process; otherwise the structure file is written, the full-chain buffer is
freed and its flag cleared, the record is appended, the ledger is sorted, every
record's `rmsd` is recomputed against element 0, and the summary table is
rewritten: header, then one row per record. -/
def print {α ρ γ : Type} [LinearOrderedField α] (sv : Services α ρ γ) (cfg : SearchConfig α ρ)
    (s : SearchState α γ) (conf_data : ConformerData α) : Except Halt (SearchState α γ) :=
  if !conf_data.chain_coords_present then .error Halt.exit1
  else
    let files := writeFile s.files (conformerFileName conf_data.index)
      (sv.writePDB conf_data.coords)
    let vec := stdSort (s.conf_data_vec_ ++ [releaseChain conf_data])
    match vec with
    | [] => .error Halt.badIndex
    | best :: rest =>
      let ref := best.monomer_coord
      let vec := (best :: rest).map (setRmsd sv.sqrt cfg.monomer_num_coords_ ref)
      .ok { s with
        conf_data_vec_ := vec
        files := writeFile files "energy_data.csv"
          (csvHeader :: vec.map (csvRow sv.showDouble)) }

/-- A sequence of admissions: `print` called on each record in turn. -/
def printAll {α ρ γ : Type} [LinearOrderedField α] (sv : Services α ρ γ) (cfg : SearchConfig α ρ) :
    SearchState α γ → List (ConformerData α) → Except Halt (SearchState α γ)
  | s, [] => .ok s
  | s, d :: ds =>
    match print sv cfg s d with
    | .error e => .error e
    | .ok s1 => printAll sv cfg s1 ds

/-! ## Search driver: `MonteCarloRotorSearch::run` -/

/-- The constant of line 50, `k_effective = 0.59 / 5.15`. -/
def k_effective (α : Type) [LinearOrderedField α] : α :=
  0.59 / 5.15

/-- The left operand of `>` in line 78, `exp(-pow(cur_dist - best_dist, 2) / k)`.
With `best_dist` infinite the argument of `exp` is minus infinity and the value
is zero. -/
def acceptanceWeight {α : Type} [LinearOrderedField α] (exp : α → α) (k cur_dist : α)
    (best_dist : WithTop α) : α :=
  match (best_dist : Option α) with
  | none => 0
  | some best => exp (-((cur_dist - best) ^ 2) / k)

/-- The loop `while (!accept)` of lines 73-82 for the rotor `r`, with at most `fuel`
passes.  A pass draws an angle, sets the rotor, measures the closure distance
and tests it; `one_zero_dist` is drawn only when the first operand of `||` is
false.  On acceptance the loop ends with the accepted distance (the new
`cur_dist` and `best_dist`), the buffer and the engine. -/
def innerLoop {α ρ γ : Type} [LinearOrderedField α] (sv : Services α ρ γ)
    (cfg : SearchConfig α ρ) (r : ρ) (best_dist : WithTop α) :
    Nat → (Nat → α) → γ → Except Halt (α × (Nat → α) × γ)
  | 0, _, _ => .error Halt.outOfFuel
  | fuel + 1, coords, rng =>
    let angle := (sv.dist rng).1
    let rng := (sv.dist rng).2
    let coords := sv.SetToAngle r coords angle
    let cur_dist := measureDistance sv.sqrt cfg.step_rot_ cfg.step_translate_ coords
      cfg.head cfg.tail
    if (cur_dist : WithTop α) < best_dist then .ok (cur_dist, coords, rng)
    else
      let u := (sv.one_zero_dist rng).1
      let rng := (sv.one_zero_dist rng).2
      if acceptanceWeight sv.exp (k_effective α) cur_dist best_dist > u then
        .ok (cur_dist, coords, rng)
      else innerLoop sv cfg r best_dist fuel coords rng

/-- The loop `while (r)` of lines 69-84 over the remaining rotors: for each one
`best_dist` is reset to infinity (line 72) and the inner loop runs.  The result
is the last `cur_dist`, the buffer and the engine. -/
def rotorLoop {α ρ γ : Type} [LinearOrderedField α] (sv : Services α ρ γ)
    (cfg : SearchConfig α ρ) (fuel : Nat) :
    List ρ → WithTop α → (Nat → α) → γ → Except Halt (WithTop α × (Nat → α) × γ)
  | [], cur_dist, coords, rng => .ok (cur_dist, coords, rng)
  | r :: rs, _, coords, rng =>
    match innerLoop sv cfg r ⊤ fuel coords rng with
    | .error e => .error e
    | .ok (cur_dist, coords, rng) => rotorLoop sv cfg fuel rs (cur_dist : WithTop α) coords rng

/-- The record handed to `print` in lines 94-98: the generated data with the
monomer buffer copied (`memcpy` of `monomer_num_coords_` doubles), the trial
index and the closure distance. -/
def admittedRecord {α ρ : Type} (cfg : SearchConfig α ρ) (data : ConformerData α)
    (coords : Nat → α) (search_index : Nat) (cur_dist : WithTop α) : ConformerData α :=
  { data with
    monomer_coord := (List.range cfg.monomer_num_coords_).map coords
    index := search_index
    distance := cur_dist }

/-- The part of one trial after the rotor loop, lines 86-100, given the final
`cur_dist`: the distance test, then materialisation, the energy filter, and on
a pass the hand-off to `print`. -/
def admissionStep {α ρ γ : Type} [LinearOrderedField α] (sv : Services α ρ γ) (cfg : SearchConfig α ρ)
    (s : SearchState α γ) (search_index : Nat) (cur_dist : WithTop α) :
    Except Halt (SearchState α γ) :=
  if cur_dist < (cfg.max_distance : WithTop α) then
    let data := sv.generateConformerData s.coords
    match isPassingEFilter cfg.energy_filter data with
    | .error e => .error e
    | .ok false => .ok s
    | .ok true => print sv cfg s (admittedRecord cfg data s.coords search_index cur_dist)
  else .ok s

/-- One pass of the `for` loop of lines 66-114: the rotor loop from
`cur_dist = best_dist = infinity` (line 68), then the admission step.  The
progress line sent to `cout` every 100000 trials is not part of the state. -/
def trial {α ρ γ : Type} [LinearOrderedField α] (sv : Services α ρ γ) (cfg : SearchConfig α ρ)
    (fuel : Nat) (s : SearchState α γ) (search_index : Nat) : Except Halt (SearchState α γ) :=
  match rotorLoop sv cfg fuel cfg.rotors ⊤ s.coords s.rng_ with
  | .error e => .error e
  | .ok (cur_dist, coords, rng) =>
    admissionStep sv cfg { s with coords := coords, rng_ := rng } search_index cur_dist

/-- The `for` loop of lines 66-114 with `remaining` trials to go, the next one
having index `search_index`. -/
def runLoop {α ρ γ : Type} [LinearOrderedField α] (sv : Services α ρ γ) (cfg : SearchConfig α ρ)
    (fuel : Nat) : Nat → Nat → SearchState α γ → Except Halt (SearchState α γ)
  | 0, _, s => .ok s
  | remaining + 1, search_index, s =>
    match trial sv cfg fuel s search_index with
    | .error e => .error e
    | .ok s1 => runLoop sv cfg fuel remaining (search_index + 1) s1

/-- The method `run`, lines 33-120, from the point where the loop starts: all
`num_steps` trials, then `return true`.  Freeing the monomer buffers (lines
116-117) leaves the modelled state as it is. -/
def run {α ρ γ : Type} [LinearOrderedField α] (sv : Services α ρ γ) (cfg : SearchConfig α ρ)
    (fuel : Nat) (s : SearchState α γ) : Except Halt (Bool × SearchState α γ) :=
  match runLoop sv cfg fuel cfg.num_steps 0 s with
  | .error e => .error e
  | .ok s1 => .ok (true, s1)

/-- Whether a trial that ends its rotor loop in state `s` with closure distance
`cur_dist` is discarded: it fails the distance test of line 87, or it is
materialised and the energy filter of line 91 returns `false`. -/
def isRejected {α ρ γ : Type} [LinearOrderedField α] (sv : Services α ρ γ)
    (cfg : SearchConfig α ρ) (s : SearchState α γ) (cur_dist : WithTop α) : Bool :=
  !decide (cur_dist < (cfg.max_distance : WithTop α)) ||
    (match isPassingEFilter cfg.energy_filter (sv.generateConformerData s.coords) with
     | .ok false => true
     | _ => false)

/-- No trial of the run is admitted: each of the `remaining` trials, taken in
order from state `s`, fails the distance test or the energy filter once its
rotor loop has finished. -/
def noTrialAdmitted {α ρ γ : Type} [LinearOrderedField α] (sv : Services α ρ γ)
    (cfg : SearchConfig α ρ) (fuel : Nat) : Nat → SearchState α γ → Bool
  | 0, _ => true
  | remaining + 1, s =>
    match rotorLoop sv cfg fuel cfg.rotors ⊤ s.coords s.rng_ with
    | .error _ => true
    | .ok (cur_dist, coords, rng) =>
      let s1 : SearchState α γ := { s with coords := coords, rng_ := rng }
      isRejected sv cfg s1 cur_dist && noTrialAdmitted sv cfg fuel remaining s1

/-! ## The inner loop with a log

The loops of lines 69-84 once more, this time recording what they do, so that
the number of draws and the operand of `||` that accepted can be stated. -/

/-- A log of one run of the loop `while (!accept)`: the angles drawn and set on
the rotor, one per pass and in order; the number of draws of `one_zero_dist`;
and whether the accepting pass was decided by the second operand of `||`, the
comparison `exp(...) > one_zero_dist(rng_)`. -/
structure LoopLog (α : Type) where
  angles : List α
  uniformDraws : Nat
  acceptedByExp : Bool

/-- The loop `innerLoop`, pass for pass, with its log. -/
def innerLoopLogged {α ρ γ : Type} [LinearOrderedField α] (sv : Services α ρ γ)
    (cfg : SearchConfig α ρ) (r : ρ) (best_dist : WithTop α) :
    Nat → (Nat → α) → γ → Except Halt ((α × (Nat → α) × γ) × LoopLog α)
  | 0, _, _ => .error Halt.outOfFuel
  | fuel + 1, coords, rng =>
    let angle := (sv.dist rng).1
    let rng := (sv.dist rng).2
    let coords := sv.SetToAngle r coords angle
    let cur_dist := measureDistance sv.sqrt cfg.step_rot_ cfg.step_translate_ coords
      cfg.head cfg.tail
    if (cur_dist : WithTop α) < best_dist then
      .ok ((cur_dist, coords, rng),
        { angles := [angle], uniformDraws := 0, acceptedByExp := false })
    else
      let u := (sv.one_zero_dist rng).1
      let rng := (sv.one_zero_dist rng).2
      if acceptanceWeight sv.exp (k_effective α) cur_dist best_dist > u then
        .ok ((cur_dist, coords, rng),
          { angles := [angle], uniformDraws := 1, acceptedByExp := true })
      else
        match innerLoopLogged sv cfg r best_dist fuel coords rng with
        | .error e => .error e
        | .ok (res, log) =>
          .ok (res,
            { angles := angle :: log.angles, uniformDraws := log.uniformDraws + 1,
              acceptedByExp := log.acceptedByExp })

/-- The loop `rotorLoop`, rotor for rotor, with the log of each inner loop next
to the rotor it ran for. -/
def rotorLoopLogged {α ρ γ : Type} [LinearOrderedField α] (sv : Services α ρ γ)
    (cfg : SearchConfig α ρ) (fuel : Nat) :
    List ρ → WithTop α → (Nat → α) → γ →
      Except Halt ((WithTop α × (Nat → α) × γ) × List (ρ × LoopLog α))
  | [], cur_dist, coords, rng => .ok ((cur_dist, coords, rng), [])
  | r :: rs, _, coords, rng =>
    match innerLoopLogged sv cfg r ⊤ fuel coords rng with
    | .error e => .error e
    | .ok ((cur_dist, coords, rng), log) =>
      match rotorLoopLogged sv cfg fuel rs (cur_dist : WithTop α) coords rng with
      | .error e => .error e
      | .ok (res, logs) => .ok (res, (r, log) :: logs)

/-- Dropping the log from a logged result. -/
def eraseLog {β τ : Type} : Except Halt (β × τ) → Except Halt β
  | .error e => .error e
  | .ok (res, _) => .ok res

/-! ## Concrete inputs

Small inputs on which the definitions above are evaluated. -/

/-- A record with the given index and total energy whose chain coordinates are
present. -/
def demoRecord (index : Nat) (energy : ℚ) : ConformerData ℚ :=
  { coords := [0, 0, 0, 0, 0, 0]
    monomer_coord := [0, 0, 0, 0, 0, 0]
    index := index
    distance := ⊤
    total_energy := energy
    bondE := 1
    angleE := 2
    torsionE := 3
    VDWE := 4
    totTorsionE := 5
    rmsd := 0
    chain_coords_present := true }

/-- Stand-ins for the collaborators, over the rationals: rotors that leave the
buffer as it is, an engine that counts its draws, and a chain builder that
always reports total energy 7.  The `sqrt` is the identity, which is the square
root at 0 and 1, the only values it meets on the inputs below; `exp` is never
reached. -/
def demoServices : Services ℚ Unit Nat :=
  { sqrt := fun x => x
    exp := fun _ => 0
    dist := fun g => (0, g + 1)
    one_zero_dist := fun g => (0, g + 1)
    SetToAngle := fun _ coords _ => coords
    generateConformerData := fun coords =>
      { demoRecord 0 7 with
        coords := [coords 0, coords 1, coords 2, coords 3, coords 4, coords 5]
        monomer_coord := [] }
    writePDB := fun cs => ["ATOM " ++ toString cs.length]
    showDouble := fun q => toString q.num ++ "/" ++ toString q.den }

/-- A search over one rotor of a two-atom monomer, three trials long.  The step
transform is the translation by `(1, 0, 0)`, the largest admissible distance
is 1, and the only ceiling is 100 on the total energy. -/
def demoConfig : SearchConfig ℚ Unit :=
  { step_rot_ := matrix3x3.identity
    step_translate_ := ⟨1, 0, 0⟩
    max_distance := 1
    energy_filter := [100]
    num_steps := 3
    monomer_num_coords_ := 6
    head := 1
    tail := 2
    rotors := [()] }

/-- The search of `demoConfig` with the largest admissible distance raised to 5. -/
def demoConfigWide : SearchConfig ℚ Unit :=
  { demoConfig with max_distance := 5 }

/-- The search of `demoConfigWide` with the ceiling on the total energy lowered
to 0, which no candidate meets. -/
def demoConfigTight : SearchConfig ℚ Unit :=
  { demoConfig with max_distance := 5, energy_filter := [0] }

/-- The state in which `run` starts: both atoms at the origin, an empty ledger,
no file written. -/
def demoState : SearchState ℚ Nat :=
  { rng_ := 0
    coords := fun _ => 0
    conf_data_vec_ := []
    files := [] }

/-- A ledger that holds one record, of total energy 7. -/
def demoStateOne : SearchState ℚ Nat :=
  { demoState with conf_data_vec_ := [releaseChain (demoRecord 0 7)] }

/-- What `print` makes of `demoStateOne` when handed the record of index 1 and
total energy 3: the new record first, both RMSDs zero, the structure file
`conformer_1.pdb` and the rewritten summary table. -/
def demoStateTwo : SearchState ℚ Nat :=
  { demoState with
    conf_data_vec_ :=
      [{ releaseChain (demoRecord 1 3) with rmsd := 0 },
       { releaseChain (demoRecord 0 7) with rmsd := 0 }]
    files :=
      [("energy_data.csv",
          [csvHeader,
           "1, 3/1, inf, 1/1, 2/1, 3/1, 4/1, 5/1, 0/1",
           "0, 7/1, inf, 1/1, 2/1, 3/1, 4/1, 5/1, 0/1"]),
       ("conformer_1.pdb", ["ATOM 6"])] }

/-- Rotors told apart by a number: setting rotor `n` to an angle writes the
angle at offset `n + 6` of the buffer, beyond the two atoms, and the engine
hands out the angles 0, 1, 2, ... in turn. -/
def demoServicesNumbered : Services ℚ Nat Nat :=
  { sqrt := fun x => x
    exp := fun _ => 0
    dist := fun g => ((g : ℚ), g + 1)
    one_zero_dist := fun g => (0, g + 1)
    SetToAngle := fun n coords angle => fun i => if i = n + 6 then angle else coords i
    generateConformerData := fun _ => demoRecord 0 7
    writePDB := fun cs => ["ATOM " ++ toString cs.length]
    showDouble := fun q => toString q.num ++ "/" ++ toString q.den }

/-- The search of `demoConfig` over the three rotors 0, 1 and 2. -/
def demoConfigThreeRotors : SearchConfig ℚ Nat :=
  { step_rot_ := matrix3x3.identity
    step_translate_ := ⟨1, 0, 0⟩
    max_distance := 1
    energy_filter := [100]
    num_steps := 3
    monomer_num_coords_ := 6
    head := 1
    tail := 2
    rotors := [0, 1, 2] }

/-- The collaborators of `demoServices` with a `sqrt` that is also the square
root at 4. -/
def demoServicesRoot : Services ℚ Unit Nat :=
  { demoServices with sqrt := fun x => if x = 4 then 2 else x }

/-- A record as it sits in the ledger (chain buffer freed) whose six monomer
coordinates all equal `fill` and whose stored RMSD is `rmsd`. -/
def demoLedgerRecord (index : Nat) (energy fill rmsd : ℚ) : ConformerData ℚ :=
  { releaseChain (demoRecord index energy) with
    monomer_coord := [fill, fill, fill, fill, fill, fill]
    rmsd := rmsd }

/-- A ledger of two records as two earlier admissions leave it: the best one, of
total energy 7 and with its monomer at 0, stores RMSD 0; the other, of total
energy 9 and with its monomer at 2, stores RMSD 2, its deviation from the
best. -/
def demoLedgerBefore : SearchState ℚ Nat :=
  { demoState with
    conf_data_vec_ := [demoLedgerRecord 0 7 0 0, demoLedgerRecord 1 9 2 2] }

/-- A candidate of total energy 3, better than both records of
`demoLedgerBefore`, with its monomer at 2 and the number 5 left in its `rmsd`
field. -/
def demoCandidate : ConformerData ℚ :=
  { demoRecord 2 3 with
    monomer_coord := [2, 2, 2, 2, 2, 2]
    rmsd := 5 }

/-- What `print` makes of `demoLedgerBefore` when handed `demoCandidate`: the
candidate comes first and stores RMSD 0; the record of total energy 7, which
stored 0, now stores 2; the record of total energy 9, which stored 2, now
stores 0. -/
def demoLedgerAfter : SearchState ℚ Nat :=
  { demoState with
    conf_data_vec_ :=
      [demoLedgerRecord 2 3 2 0, demoLedgerRecord 0 7 0 2, demoLedgerRecord 1 9 2 0]
    files :=
      [("energy_data.csv",
          [csvHeader,
           "2, 3/1, inf, 1/1, 2/1, 3/1, 4/1, 5/1, 0/1",
           "0, 7/1, inf, 1/1, 2/1, 3/1, 4/1, 5/1, 2/1",
           "1, 9/1, inf, 1/1, 2/1, 3/1, 4/1, 5/1, 0/1"]),
       ("conformer_2.pdb", ["ATOM 6"])] }

/-- A category with one optional field that is not set and one required field
that is not set either. -/
def demoCategory : Category ℚ :=
  { name := "RUNTIME PARAMETERS"
    size_fields := [{ name := "chain_length", is_set := false, is_required := false, data := 0 }]
    size_vec_fields := []
    string_fields := [{ name := "algorithm", is_set := false, is_required := true, data := "" }]
    string_vec_fields := []
    double_fields := []
    double_vec_fields := [] }

/-! ## Theorems -/

/-! ### Energy filter -/

theorem eFilterLoop_exceeded {α : Type} [LT α] [DecidableRel (fun a b : α => a < b)]
    (max_vals cur_vals : List α) (i : Nat) (m c : α)
    (hm : max_vals[i]? = some m) (hc : cur_vals[i]? = some c) (h : m < c) :
    eFilterLoop max_vals cur_vals = .ok false := by
  induction max_vals generalizing cur_vals i with
  | nil => simp at hm
  | cons m0 ms ih =>
    cases cur_vals with
    | nil => simp at hc
    | cons c0 cs =>
      by_cases h0 : m0 < c0
      · simp [eFilterLoop, h0]
      · cases i with
        | zero =>
          simp at hm hc
          subst hm; subst hc
          exact absurd h h0
        | succ j =>
          simp at hm hc
          simpa [eFilterLoop, h0] using ih cs j hm hc

theorem eFilterLoop_not_exceeded {α : Type} [LT α] [DecidableRel (fun a b : α => a < b)]
    (max_vals cur_vals : List α)
    (h : ∀ (i : Nat) (m : α), max_vals[i]? = some m → ∃ c, cur_vals[i]? = some c ∧ ¬ m < c) :
    eFilterLoop max_vals cur_vals = .ok true := by
  induction max_vals generalizing cur_vals with
  | nil => rfl
  | cons m0 ms ih =>
    cases cur_vals with
    | nil =>
      obtain ⟨c, hc, _⟩ := h 0 m0 (by simp)
      simp at hc
    | cons c0 cs =>
      have h0 : ¬ m0 < c0 := by
        obtain ⟨c, hc, hlt⟩ := h 0 m0 (by simp)
        simp at hc
        subst hc
        exact hlt
      have hrest : ∀ (i : Nat) (m : α), ms[i]? = some m → ∃ c, cs[i]? = some c ∧ ¬ m < c := by
        intro i m hm
        simpa using h (i + 1) m (by simpa using hm)
      simp [eFilterLoop, h0, ih cs hrest]

/-- Claim C2.  The energy filter's boundary is inclusive: when every configured
ceiling has a checked energy component opposite it and that component is exactly
equal to the ceiling, `isPassingEFilter` returns `true`. -/
theorem isPassingEFilter_boundary_inclusive {α : Type} [Preorder α]
    [DecidableRel (fun a b : α => a < b)]
    (energy_filter : List α) (conf_data : ConformerData α)
    (hEq : ∀ (i : Nat) (m : α), energy_filter[i]? = some m →
      (curVals conf_data)[i]? = some m) :
    isPassingEFilter energy_filter conf_data = .ok true := by
  unfold isPassingEFilter
  apply eFilterLoop_not_exceeded
  intro i m hm
  exact ⟨m, hEq i m hm, lt_irrefl m⟩

/-- Claim C2 at a candidate whose five checked components are exactly the five
ceilings `[7, 2, 1, 4, 5]`. -/
theorem isPassingEFilter_boundary_inclusive_witness :
    isPassingEFilter [7, 2, 1, 4, 5] (demoRecord 0 7) = .ok true :=
  isPassingEFilter_boundary_inclusive [7, 2, 1, 4, 5] (demoRecord 0 7) (fun _ _ h => h)

/-- Claim C3.  Energy filter rejection: if some energy component strictly exceeds
the ceiling configured at its position, `isPassingEFilter` returns `false`
whatever the other components and ceilings are; and whenever it returns `true`,
no configured ceiling is exceeded by the component opposite it. -/
theorem isPassingEFilter_rejects_exceeding {α : Type} [LT α]
    [DecidableRel (fun a b : α => a < b)]
    (energy_filter : List α) (conf_data : ConformerData α) :
    ((∃ (i : Nat) (m c : α), energy_filter[i]? = some m ∧
        (curVals conf_data)[i]? = some c ∧ m < c) →
        isPassingEFilter energy_filter conf_data = .ok false) ∧
    (isPassingEFilter energy_filter conf_data = .ok true →
        ∀ (i : Nat) (m c : α), energy_filter[i]? = some m →
          (curVals conf_data)[i]? = some c → ¬ m < c) := by
  have key : (∃ (i : Nat) (m c : α), energy_filter[i]? = some m ∧
      (curVals conf_data)[i]? = some c ∧ m < c) →
      isPassingEFilter energy_filter conf_data = .ok false := by
    rintro ⟨i, m, c, hm, hc, hlt⟩
    exact eFilterLoop_exceeded energy_filter (curVals conf_data) i m c hm hc hlt
  refine ⟨key, ?_⟩
  intro htrue i m c hm hc hlt
  rw [key ⟨i, m, c, hm, hc, hlt⟩] at htrue
  cases htrue

/-- Claim C3 at a candidate that meets every ceiling except the third: its bond
energy 1 exceeds the ceiling 0. -/
theorem isPassingEFilter_rejects_exceeding_witness :
    isPassingEFilter [7, 2, 0, 4, 5] (demoRecord 0 7) = .ok false :=
  (isPassingEFilter_rejects_exceeding [7, 2, 0, 4, 5] (demoRecord 0 7)).1
    ⟨2, 0, 1, rfl, rfl, by norm_num⟩

/-! ### Configuration validation -/

theorem validateFields_error_found {τ : Type} (fields : List (Field τ)) (st : ValidateState) :
    (validateFields fields st).error_found = true ↔
      st.error_found = true ∨ missingRequired fields := by
  induction fields generalizing st with
  | nil => simp [validateFields, missingRequired]
  | cons f fs ih =>
    have hstep : validateFields (f :: fs) st =
        validateFields fs
          (if (!f.is_set) && f.is_required then
            { cout := st.cout ++ ["Required field \"" ++ f.name ++ "\" is not set."],
              error_found := true }
           else st) := by
      simp [validateFields]
    rw [hstep, ih]
    cases hs : f.is_set <;> cases hr : f.is_required <;>
      simp [missingRequired, hs, hr]

/-- Claim C10.  A missing required field is fatal: `Category::validate` ends in
`exit(1)` exactly when some registered field of the category, of any of the six
field types, is required and not set; when no such field exists it returns
normally, whatever the state of the optional fields. -/
theorem validate_exit_iff_missing_required {α : Type} (c : Category α) :
    (c.validate = .error Halt.exit1 ↔ c.hasMissingRequired) ∧
    (¬ c.hasMissingRequired → ∃ out, c.validate = .ok out) := by
  have hfound : (validateFields c.double_vec_fields
      (validateFields c.double_fields
        (validateFields c.string_vec_fields
          (validateFields c.string_fields
            (validateFields c.size_vec_fields
              (validateFields c.size_fields
                { cout := [], error_found := false })))))).error_found = true ↔
      c.hasMissingRequired := by
    simp only [validateFields_error_found, Category.hasMissingRequired]
    simp [or_assoc]
  constructor
  · rw [← hfound]
    unfold Category.validate
    simp only []
    split <;> simp_all
  · intro hno
    rw [← hfound] at hno
    unfold Category.validate
    simp only []
    split
    · contradiction
    · exact ⟨_, rfl⟩

/-- Claim C10 at a category whose required field `algorithm` is not set:
`validate` ends in `exit(1)`. -/
theorem validate_exit_iff_missing_required_witness :
    demoCategory.validate = .error Halt.exit1 :=
  (validate_exit_iff_missing_required demoCategory).1.2
    (Or.inr (Or.inr (Or.inl
      ⟨{ name := "algorithm", is_set := false, is_required := true, data := "" },
        List.mem_cons_self _ _, rfl, rfl⟩)))

/-! ### Closure distance -/

theorem tripletOffset_of_small (a : Nat) (h1 : 1 ≤ a) (h : 3 * (a - 1) + 2 < UINT_RANGE) :
    tripletOffset a = 3 * (a - 1) ∧
    (tripletOffset a + 1) % UINT_RANGE = 3 * (a - 1) + 1 ∧
    (tripletOffset a + 2) % UINT_RANGE = 3 * (a - 1) + 2 := by
  unfold tripletOffset UINT_RANGE at *
  omega

theorem readPoint_of_small {α : Type} (coords : Nat → α) (a : Nat) (h1 : 1 ≤ a)
    (h : 3 * (a - 1) + 2 < UINT_RANGE) :
    readPoint coords (tripletOffset a) =
      { x := coords (3 * (a - 1)), y := coords (3 * (a - 1) + 1),
        z := coords (3 * (a - 1) + 2) } := by
  obtain ⟨h0, h1, h2⟩ := tripletOffset_of_small a h1 h
  unfold readPoint
  rw [h1, h2, h0]

theorem euclidean_dist_eq_sqrt_distSq (p q : vector3 ℝ) :
    dist (euclideanPoint p.toFun) (euclideanPoint q.toFun) = Real.sqrt (p.distSq q) := by
  rw [EuclideanSpace.dist_eq]
  congr 1
  simp [Fin.sum_univ_three, euclideanPoint, vector3.toFun, vector3.distSq, Real.dist_eq,
    sq_abs]
  ring

theorem mulMatrix_toFun (v : vector3 ℝ) (m : matrix3x3 ℝ) (t : vector3 ℝ) :
    ((v.mulMatrix m).add t).toFun = m.toMatrix.mulVec v.toFun + t.toFun := by
  funext i
  fin_cases i <;>
    simp [vector3.toFun, vector3.mulMatrix, vector3.add, matrix3x3.toMatrix, Matrix.mulVec,
      Matrix.dotProduct, Fin.sum_univ_three] <;> ring

/-- Claim C6, as stated, fails: with `head = 1431655767` the `unsigned` product
`3 * (head - 1)` wraps to `2`, so `measureDistance` reads the head atom at
offsets 2, 3, 4 and returns 1, while the stated formula, reading at offset
`3 * (head - 1) = 4294967298`, gives 0. -/
theorem measureDistance_offset_wraps :
    1 ≤ 1431655767 ∧ 1 ≤ 2 ∧
    measureDistance Real.sqrt matrix3x3.identity ⟨0, 0, 0⟩ (bufferOneAtTwo ℝ) 1431655767 2 = 1 ∧
    closureDistanceSpec matrix3x3.identity ⟨0, 0, 0⟩ (bufferOneAtTwo ℝ) 1431655767 2 = 0 ∧
    measureDistance Real.sqrt matrix3x3.identity ⟨0, 0, 0⟩ (bufferOneAtTwo ℝ) 1431655767 2 ≠
      closureDistanceSpec matrix3x3.identity ⟨0, 0, 0⟩ (bufferOneAtTwo ℝ) 1431655767 2 := by
  have hcode : measureDistance Real.sqrt matrix3x3.identity ⟨0, 0, 0⟩ (bufferOneAtTwo ℝ)
      1431655767 2 = 1 := by
    have h1 : tripletOffset 1431655767 = 2 := by decide
    have h2 : tripletOffset 2 = 3 := by decide
    simp [measureDistance, h1, h2, readPoint, UINT_RANGE, bufferOneAtTwo, vector3.mulMatrix,
      vector3.add, vector3.distSq, matrix3x3.identity]
  have hspec : closureDistanceSpec matrix3x3.identity ⟨0, 0, 0⟩ (bufferOneAtTwo ℝ)
      1431655767 2 = 0 := by
    unfold closureDistanceSpec
    rw [← mulMatrix_toFun, euclidean_dist_eq_sqrt_distSq]
    simp [pointAt, bufferOneAtTwo, vector3.mulMatrix, vector3.add, vector3.distSq,
      matrix3x3.identity]
  refine ⟨by decide, by decide, hcode, hspec, ?_⟩
  rw [hcode, hspec]
  exact one_ne_zero

/-- Claim C6, amended.  For 1-based atom indices `head` and `tail` whose triplets
lie below offset `2 ^ 32` (so `head, tail ≤ 1431655765`), `measureDistance`
returns the Euclidean distance between the point at
`coords[3(head-1) .. 3(head-1)+2]` and `step_rot_ * coords[3(tail-1) ..
3(tail-1)+2] + step_translate_`; it is a function of its arguments that returns
only a number, and its value depends on `coords` only through those six
entries. -/
theorem measureDistance_eq_closureDistanceSpec (step_rot_ : matrix3x3 ℝ)
    (step_translate_ : vector3 ℝ) (coords : Nat → ℝ) (head tail : Nat)
    (hhead : 1 ≤ head) (htail : 1 ≤ tail)
    (hheadFits : 3 * (head - 1) + 2 < 2 ^ 32) (htailFits : 3 * (tail - 1) + 2 < 2 ^ 32) :
    measureDistance Real.sqrt step_rot_ step_translate_ coords head tail =
      closureDistanceSpec step_rot_ step_translate_ coords head tail ∧
    ∀ other : Nat → ℝ,
      pointAt other (3 * (head - 1)) = pointAt coords (3 * (head - 1)) →
      pointAt other (3 * (tail - 1)) = pointAt coords (3 * (tail - 1)) →
      measureDistance Real.sqrt step_rot_ step_translate_ other head tail =
        measureDistance Real.sqrt step_rot_ step_translate_ coords head tail := by
  have hread : ∀ (c : Nat → ℝ) (a : Nat), 1 ≤ a → 3 * (a - 1) + 2 < 2 ^ 32 →
      readPoint c (tripletOffset a) = pointAt c (3 * (a - 1)) := by
    intro c a h1 h2
    exact readPoint_of_small c a h1 h2
  constructor
  · unfold closureDistanceSpec
    rw [← mulMatrix_toFun, euclidean_dist_eq_sqrt_distSq]
    simp only [measureDistance, hread coords head hhead hheadFits,
      hread coords tail htail htailFits]
  · intro other hh ht
    simp only [measureDistance, hread coords head hhead hheadFits,
      hread coords tail htail htailFits, hread other head hhead hheadFits,
      hread other tail htail htailFits, hh, ht]

/-- The amended C6 applied to atoms 1 and 2 of the six-entry buffer with both
atoms at `(1, 0, 0)`, under the half turn about the z axis. -/
theorem measureDistance_eq_closureDistanceSpec_witness :
    measureDistance Real.sqrt (halfTurnZ ℝ) ⟨0, 0, 0⟩ (bufferShifted ℝ) 1 2 =
      closureDistanceSpec (halfTurnZ ℝ) ⟨0, 0, 0⟩ (bufferShifted ℝ) 1 2 :=
  (measureDistance_eq_closureDistanceSpec (halfTurnZ ℝ) ⟨0, 0, 0⟩ (bufferShifted ℝ) 1 2
    (by decide) (by decide) (by decide) (by decide)).1

theorem distSq_rigidMotion {α : Type} [CommRing α] (G : matrix3x3 α) (g p q : vector3 α)
    (hG : G.transpose.mul G = matrix3x3.identity) :
    (rigidMotion G g p).distSq (rigidMotion G g q) = p.distSq q := by
  have h00 := congrArg matrix3x3.e00 hG
  have h01 := congrArg matrix3x3.e01 hG
  have h02 := congrArg matrix3x3.e02 hG
  have h11 := congrArg matrix3x3.e11 hG
  have h12 := congrArg matrix3x3.e12 hG
  have h22 := congrArg matrix3x3.e22 hG
  simp only [matrix3x3.mul, matrix3x3.transpose, matrix3x3.identity] at h00 h01 h02 h11 h12 h22
  simp only [rigidMotion, vector3.mulMatrix, vector3.add, vector3.distSq]
  linear_combination
    (p.x - q.x) * (p.x - q.x) * h00 + (p.y - q.y) * (p.y - q.y) * h11
      + (p.z - q.z) * (p.z - q.z) * h22
      + 2 * (p.x - q.x) * (p.y - q.y) * h01 + 2 * (p.x - q.x) * (p.z - q.z) * h02
      + 2 * (p.y - q.y) * (p.z - q.z) * h12

/-- Claim C7, as stated, fails: take the half turn about the z axis as step
rotation, no step translation, and move two atoms at the origin by the global
translation `(1, 0, 0)` (global rotation the identity).  The closure distance
was 0 and is 2 afterwards. -/
theorem measureDistance_not_rigid_invariant :
    (matrix3x3.identity : matrix3x3 ℝ).IsRotation ∧ (halfTurnZ ℝ).IsRotation ∧
    readPoint (bufferShifted ℝ) (tripletOffset 1) =
      rigidMotion matrix3x3.identity ⟨1, 0, 0⟩ (readPoint (bufferOrigin ℝ) (tripletOffset 1)) ∧
    readPoint (bufferShifted ℝ) (tripletOffset 2) =
      rigidMotion matrix3x3.identity ⟨1, 0, 0⟩ (readPoint (bufferOrigin ℝ) (tripletOffset 2)) ∧
    measureDistance Real.sqrt (halfTurnZ ℝ) ⟨0, 0, 0⟩ (bufferOrigin ℝ) 1 2 = 0 ∧
    measureDistance Real.sqrt (halfTurnZ ℝ) ⟨0, 0, 0⟩ (bufferShifted ℝ) 1 2 = 2 ∧
    measureDistance Real.sqrt (halfTurnZ ℝ) ⟨0, 0, 0⟩ (bufferShifted ℝ) 1 2 ≠
      measureDistance Real.sqrt (halfTurnZ ℝ) ⟨0, 0, 0⟩ (bufferOrigin ℝ) 1 2 := by
  have h1 : tripletOffset 1 = 0 := by decide
  have h2 : tripletOffset 2 = 3 := by decide
  have hbefore : measureDistance Real.sqrt (halfTurnZ ℝ) ⟨0, 0, 0⟩ (bufferOrigin ℝ) 1 2 = 0 := by
    simp [measureDistance, h1, h2, readPoint, UINT_RANGE, bufferOrigin, vector3.mulMatrix,
      vector3.add, vector3.distSq, halfTurnZ]
  have hafter : measureDistance Real.sqrt (halfTurnZ ℝ) ⟨0, 0, 0⟩ (bufferShifted ℝ) 1 2 = 2 := by
    have h4 : Real.sqrt 4 = 2 := by
      rw [show (4 : ℝ) = 2 ^ 2 by norm_num]
      exact Real.sqrt_sq (by norm_num)
    simp [measureDistance, h1, h2, readPoint, UINT_RANGE, bufferShifted, vector3.mulMatrix,
      vector3.add, vector3.distSq, halfTurnZ]
    norm_num [h4]
  refine ⟨?_, ?_, ?_, ?_, hbefore, hafter, ?_⟩
  · constructor <;> simp [matrix3x3.mul, matrix3x3.transpose, matrix3x3.identity, matrix3x3.det]
  · constructor <;> simp [matrix3x3.mul, matrix3x3.transpose, matrix3x3.identity, matrix3x3.det,
      halfTurnZ]
  · simp [h1, readPoint, UINT_RANGE, bufferShifted, bufferOrigin, rigidMotion,
      vector3.mulMatrix, vector3.add, matrix3x3.identity]
  · simp [h2, readPoint, UINT_RANGE, bufferShifted, bufferOrigin, rigidMotion,
      vector3.mulMatrix, vector3.add, matrix3x3.identity]
  · rw [hbefore, hafter]
    norm_num

/-- Claim C7, amended.  The closure distance is invariant under a global rigid
motion `p ↦ G * p + g`, with `G` a rotation, that commutes with the step
transform `p ↦ step_rot_ * p + step_translate_`: if head and tail are both
replaced by their images under the motion, `measureDistance` returns the same
value. -/
theorem measureDistance_rigid_invariant {α : Type} [CommRing α] (sqrt : α → α)
    (G step_rot_ : matrix3x3 α) (g step_translate_ : vector3 α)
    (coords moved : Nat → α) (head tail : Nat)
    (hG : G.IsRotation)
    (hcomm : ∀ p : vector3 α,
      rigidMotion step_rot_ step_translate_ (rigidMotion G g p) =
        rigidMotion G g (rigidMotion step_rot_ step_translate_ p))
    (hhead : readPoint moved (tripletOffset head) =
      rigidMotion G g (readPoint coords (tripletOffset head)))
    (htail : readPoint moved (tripletOffset tail) =
      rigidMotion G g (readPoint coords (tripletOffset tail))) :
    measureDistance sqrt step_rot_ step_translate_ moved head tail =
      measureDistance sqrt step_rot_ step_translate_ coords head tail := by
  have hstep : ∀ p : vector3 α,
      (p.mulMatrix step_rot_).add step_translate_ = rigidMotion step_rot_ step_translate_ p :=
    fun _ => rfl
  simp only [measureDistance, hhead, htail, hstep, hcomm]
  rw [distSq_rigidMotion G g _ _ hG.1]

/-- The amended C7 at the quarter turn about the z axis followed by a lift by 5,
which commutes with the step transform "half turn about the z axis, then lift
by 1". -/
theorem measureDistance_rigid_invariant_witness :
    measureDistance Real.sqrt (halfTurnZ ℝ) ⟨0, 0, 1⟩ (bufferTurned ℝ) 1 2 =
      measureDistance Real.sqrt (halfTurnZ ℝ) ⟨0, 0, 1⟩ (bufferShifted ℝ) 1 2 :=
  measureDistance_rigid_invariant Real.sqrt (quarterTurnZ ℝ) (halfTurnZ ℝ) ⟨0, 0, 5⟩ ⟨0, 0, 1⟩
    (bufferShifted ℝ) (bufferTurned ℝ) 1 2
    (by constructor <;>
      simp [matrix3x3.mul, matrix3x3.transpose, matrix3x3.identity, matrix3x3.det, quarterTurnZ])
    (by
      intro p
      simp [rigidMotion, vector3.mulMatrix, vector3.add, quarterTurnZ, halfTurnZ]
      ring)
    (by
      have h1 : tripletOffset 1 = 0 := by decide
      simp [h1, readPoint, UINT_RANGE, bufferTurned, bufferShifted, rigidMotion,
        vector3.mulMatrix, vector3.add, quarterTurnZ])
    (by
      have h2 : tripletOffset 2 = 3 := by decide
      simp [h2, readPoint, UINT_RANGE, bufferTurned, bufferShifted, rigidMotion,
        vector3.mulMatrix, vector3.add, quarterTurnZ])

/-! ### Ledger -/

/-- The ranking the ledger is kept in: ascending total energy. -/
theorem stdSort_sorted {α : Type} [LinearOrder α] (v : List (ConformerData α)) :
    List.Sorted (fun a b => a.total_energy ≤ b.total_energy) (stdSort v) := by
  have hrel : ∀ a b : ConformerData α,
      (ConformerData.lt b a = false) ↔ a.total_energy ≤ b.total_energy := by
    intro a b
    simp [ConformerData.lt]
  haveI : IsTotal (ConformerData α) (fun a b => ConformerData.lt b a = false) :=
    ⟨fun a b => by rw [hrel, hrel]; exact le_total _ _⟩
  haveI : IsTrans (ConformerData α) (fun a b => ConformerData.lt b a = false) :=
    ⟨fun a b c hab hbc => by rw [hrel] at *; exact le_trans hab hbc⟩
  have hs := List.sorted_insertionSort (fun a b : ConformerData α => ConformerData.lt b a = false) v
  exact List.Pairwise.imp (fun {a b} h => (hrel a b).1 h) hs

theorem stdSort_perm {α : Type} [LinearOrder α] (v : List (ConformerData α)) :
    (stdSort v).Perm v :=
  List.perm_insertionSort _ v

theorem print_of_present {α ρ γ : Type} [LinearOrderedField α] (sv : Services α ρ γ)
    (cfg : SearchConfig α ρ) (s : SearchState α γ) (conf_data : ConformerData α)
    (h : conf_data.chain_coords_present = true) :
    ∃ best rest, stdSort (s.conf_data_vec_ ++ [releaseChain conf_data]) = best :: rest ∧
      print sv cfg s conf_data = .ok
        { s with
          conf_data_vec_ :=
            (best :: rest).map (setRmsd sv.sqrt cfg.monomer_num_coords_ best.monomer_coord)
          files := writeFile
            (writeFile s.files (conformerFileName conf_data.index) (sv.writePDB conf_data.coords))
            "energy_data.csv"
            (csvHeader :: ((best :: rest).map
              (setRmsd sv.sqrt cfg.monomer_num_coords_ best.monomer_coord)).map
                (csvRow sv.showDouble)) } := by
  cases hsort : stdSort (s.conf_data_vec_ ++ [releaseChain conf_data]) with
  | nil =>
    have hlen := (stdSort_perm (s.conf_data_vec_ ++ [releaseChain conf_data])).length_eq
    rw [hsort] at hlen
    simp at hlen
  | cons best rest =>
    refine ⟨best, rest, rfl, ?_⟩
    simp [print, h, hsort]

theorem print_ok_inv {α ρ γ : Type} [LinearOrderedField α] (sv : Services α ρ γ)
    (cfg : SearchConfig α ρ) (s s' : SearchState α γ) (conf_data : ConformerData α)
    (h : print sv cfg s conf_data = .ok s') :
    conf_data.chain_coords_present = true := by
  cases hp : conf_data.chain_coords_present with
  | true => rfl
  | false => simp [print, hp] at h

theorem setRmsd_total_energy {α : Type} [DivisionRing α] (sqrt : α → α) (n : Nat)
    (ref : List α) (l : List (ConformerData α)) :
    (l.map (setRmsd sqrt n ref)).map ConformerData.total_energy =
      l.map ConformerData.total_energy := by
  simp [List.map_map, Function.comp_def, setRmsd]

theorem print_ledger {α ρ γ : Type} [LinearOrderedField α] (sv : Services α ρ γ)
    (cfg : SearchConfig α ρ) (s s' : SearchState α γ) (conf_data : ConformerData α)
    (h : print sv cfg s conf_data = .ok s') :
    ∃ best rest, stdSort (s.conf_data_vec_ ++ [releaseChain conf_data]) = best :: rest ∧
      s'.conf_data_vec_ =
        (best :: rest).map (setRmsd sv.sqrt cfg.monomer_num_coords_ best.monomer_coord) := by
  obtain ⟨best, rest, hsort, hprint⟩ :=
    print_of_present sv cfg s conf_data (print_ok_inv sv cfg s s' conf_data h)
  rw [hprint] at h
  injection h with h
  subst h
  exact ⟨best, rest, hsort, rfl⟩

theorem print_sorted {α ρ γ : Type} [LinearOrderedField α] (sv : Services α ρ γ)
    (cfg : SearchConfig α ρ) (s s' : SearchState α γ) (conf_data : ConformerData α)
    (h : print sv cfg s conf_data = .ok s') :
    List.Sorted (fun a b => a.total_energy ≤ b.total_energy) s'.conf_data_vec_ ∧
    (s'.conf_data_vec_.map ConformerData.total_energy).Perm
      ((s.conf_data_vec_ ++ [conf_data]).map ConformerData.total_energy) := by
  obtain ⟨best, rest, hsort, hvec⟩ := print_ledger sv cfg s s' conf_data h
  have hs := stdSort_sorted (s.conf_data_vec_ ++ [releaseChain conf_data])
  have hp := stdSort_perm (s.conf_data_vec_ ++ [releaseChain conf_data])
  rw [hsort] at hs hp
  constructor
  · rw [hvec]
    unfold List.Sorted at hs ⊢
    rw [List.pairwise_map]
    exact List.Pairwise.imp (fun {a b} hab => by simpa [setRmsd] using hab) hs
  · rw [hvec, setRmsd_total_energy]
    have := hp.map ConformerData.total_energy
    simpa [releaseChain] using this

theorem printAll_sorted {α ρ γ : Type} [LinearOrderedField α] (sv : Services α ρ γ)
    (cfg : SearchConfig α ρ) (ds : List (ConformerData α)) :
    ∀ s : SearchState α γ, (∀ d ∈ ds, d.chain_coords_present = true) →
      ∃ s', printAll sv cfg s ds = .ok s' ∧
        (ds ≠ [] → List.Sorted (fun a b => a.total_energy ≤ b.total_energy) s'.conf_data_vec_) ∧
        (s'.conf_data_vec_.map ConformerData.total_energy).Perm
          ((s.conf_data_vec_ ++ ds).map ConformerData.total_energy) := by
  induction ds with
  | nil =>
    intro s _
    exact ⟨s, rfl, fun h => absurd rfl h, by simp⟩
  | cons d ds ih =>
    intro s hpresent
    obtain ⟨best, rest, _, hprint⟩ :=
      print_of_present sv cfg s d (hpresent d (List.mem_cons_self d ds))
    obtain ⟨s', hall, hsorted, hperm⟩ :=
      ih _ (fun x hx => hpresent x (List.mem_cons_of_mem d hx))
    have hstep := print_sorted sv cfg s _ d hprint
    refine ⟨s', ?_, ?_, ?_⟩
    · simp only [printAll, hprint]
      exact hall
    · intro _
      cases ds with
      | nil =>
        simp only [printAll] at hall
        injection hall with hall
        rw [← hall]
        exact hstep.1
      | cons d2 ds2 => exact hsorted (List.cons_ne_nil d2 ds2)
    · refine hperm.trans ?_
      have h1 := hstep.2
      simp only [List.map_append] at h1 ⊢
      have h2 := h1.append_right (ds.map ConformerData.total_energy)
      simpa [List.append_assoc] using h2

/-- Claim C1.  Ledger ordering invariant: starting from any ledger, after one or
more calls to `print` on records that carry their chain coordinates (so that
each call returns), the ledger is sorted ascending by total energy, its
energies are those of the earlier ledger and of the admitted records, and
element 0 has the least total energy among all of them. -/
theorem ledger_sorted_after_admissions {α ρ γ : Type} [LinearOrderedField α]
    (sv : Services α ρ γ) (cfg : SearchConfig α ρ) (s : SearchState α γ)
    (ds : List (ConformerData α)) (hne : ds ≠ [])
    (hpresent : ∀ d ∈ ds, d.chain_coords_present = true) :
    ∃ s', printAll sv cfg s ds = .ok s' ∧
      List.Sorted (fun a b => a.total_energy ≤ b.total_energy) s'.conf_data_vec_ ∧
      (s'.conf_data_vec_.map ConformerData.total_energy).Perm
        ((s.conf_data_vec_ ++ ds).map ConformerData.total_energy) ∧
      ∃ best rest, s'.conf_data_vec_ = best :: rest ∧
        ∀ d ∈ s.conf_data_vec_ ++ ds, best.total_energy ≤ d.total_energy := by
  obtain ⟨s', hall, hsorted, hperm⟩ := printAll_sorted sv cfg ds s hpresent
  have hs := hsorted hne
  refine ⟨s', hall, hs, hperm, ?_⟩
  cases hvec : s'.conf_data_vec_ with
  | nil =>
    have hlen := hperm.length_eq
    rw [hvec] at hlen
    cases ds with
    | nil => exact absurd rfl hne
    | cons d ds =>
      simp at hlen
      omega
  | cons best rest =>
    refine ⟨best, rest, rfl, ?_⟩
    intro d hd
    have hmem : d.total_energy ∈ s'.conf_data_vec_.map ConformerData.total_energy :=
      hperm.symm.subset (List.mem_map_of_mem _ hd)
    rw [hvec] at hmem hs
    obtain ⟨v, hv, hve⟩ := List.mem_map.1 hmem
    rw [← hve]
    rcases List.mem_cons.1 hv with hv | hv
    · rw [hv]
    · exact List.rel_of_sorted_cons hs v hv

/-- Claim C1 at two admissions into an empty ledger, the first with total energy
7 and the second with total energy 3. -/
theorem ledger_sorted_after_admissions_witness :
    ∃ s', printAll demoServices demoConfig demoState [demoRecord 0 7, demoRecord 1 3] = .ok s' ∧
      List.Sorted (fun a b => a.total_energy ≤ b.total_energy) s'.conf_data_vec_ ∧
      (s'.conf_data_vec_.map ConformerData.total_energy).Perm
        ((demoState.conf_data_vec_ ++ [demoRecord 0 7, demoRecord 1 3]).map
          ConformerData.total_energy) ∧
      ∃ best rest, s'.conf_data_vec_ = best :: rest ∧
        ∀ d ∈ demoState.conf_data_vec_ ++ [demoRecord 0 7, demoRecord 1 3],
          best.total_energy ≤ d.total_energy :=
  ledger_sorted_after_admissions demoServices demoConfig demoState
    [demoRecord 0 7, demoRecord 1 3] (List.cons_ne_nil _ _)
    (by
      intro d hd
      simp only [List.mem_cons, List.mem_singleton, List.not_mem_nil, or_false] at hd
      rcases hd with rfl | rfl <;> rfl)

theorem calcRMSD_self {α : Type} [DivisionRing α] (sqrt : α → α) (hsqrt : sqrt 0 = 0)
    (ref : List α) (size : Nat) : calcRMSD sqrt ref ref size = 0 := by
  have hsum : ((List.range size).map
      (fun i => (ref.getD i 0 - ref.getD i 0) * (ref.getD i 0 - ref.getD i 0))).sum = 0 := by
    apply List.sum_eq_zero
    intro x hx
    obtain ⟨i, _, hi⟩ := List.mem_map.1 hx
    rw [← hi]
    simp
  unfold calcRMSD
  rw [hsum, zero_div, hsqrt]

/-- The call of `print` on `demoStateOne`, evaluated. -/
theorem print_demoStateOne :
    print demoServices demoConfig demoStateOne (demoRecord 1 3) = .ok demoStateTwo := by
  with_unfolding_all rfl

/-- The call of `print` on `demoLedgerBefore`, evaluated: the stored RMSD of
the record with index 0 goes from 0 to 2, that of the record with index 1 from
2 to 0, and the 5 the candidate carried is replaced by 0. -/
theorem print_demoLedgerBefore :
    print demoServicesRoot demoConfig demoLedgerBefore demoCandidate = .ok demoLedgerAfter ∧
    demoLedgerBefore.conf_data_vec_.map (fun v => (v.index, v.rmsd)) = [(0, 0), (1, 2)] ∧
    demoCandidate.rmsd = 5 ∧
    demoLedgerAfter.conf_data_vec_.map (fun v => (v.index, v.rmsd)) =
      [(2, 0), (0, 2), (1, 0)] :=
  ⟨by with_unfolding_all rfl, by with_unfolding_all rfl, rfl, by with_unfolding_all rfl⟩

/-- Claim C5.  RMSD is relative to the current best: after a call to `print`
that returns, the ledger consists of the records of the earlier ledger and the
admitted record (its chain buffer freed), sorted by total energy, each with its
`rmsd` replaced by the RMSD between its own monomer coordinates and those of
element 0 of the sorted ledger; so every stored `rmsd` is relative to the new
element 0, whatever the record stored before, records admitted earlier
included; and element 0 stores 0 (for a `sqrt` with `sqrt(0) = 0`). -/
theorem rmsd_relative_to_best {α ρ γ : Type} [LinearOrderedField α] (sv : Services α ρ γ)
    (cfg : SearchConfig α ρ) (s s' : SearchState α γ) (conf_data : ConformerData α)
    (h : print sv cfg s conf_data = .ok s') (hsqrt : sv.sqrt 0 = 0) :
    ∃ best rest, s'.conf_data_vec_ = best :: rest ∧
      List.Sorted (fun a b => a.total_energy ≤ b.total_energy) s'.conf_data_vec_ ∧
      (∃ sorted : List (ConformerData α),
          sorted.Perm (s.conf_data_vec_ ++ [releaseChain conf_data]) ∧
        s'.conf_data_vec_ =
          sorted.map (setRmsd sv.sqrt cfg.monomer_num_coords_ best.monomer_coord)) ∧
      (∀ w ∈ s.conf_data_vec_,
        setRmsd sv.sqrt cfg.monomer_num_coords_ best.monomer_coord w ∈ s'.conf_data_vec_) ∧
      setRmsd sv.sqrt cfg.monomer_num_coords_ best.monomer_coord (releaseChain conf_data) ∈
        s'.conf_data_vec_ ∧
      (∀ v ∈ s'.conf_data_vec_,
        v.rmsd = calcRMSD sv.sqrt best.monomer_coord v.monomer_coord cfg.monomer_num_coords_) ∧
      best.rmsd = 0 := by
  obtain ⟨best, rest, hsort, hvec⟩ := print_ledger sv cfg s s' conf_data h
  have hperm := stdSort_perm (s.conf_data_vec_ ++ [releaseChain conf_data])
  rw [hsort] at hperm
  have hin : ∀ w ∈ s.conf_data_vec_ ++ [releaseChain conf_data],
      setRmsd sv.sqrt cfg.monomer_num_coords_ best.monomer_coord w ∈ s'.conf_data_vec_ := by
    intro w hw
    rw [hvec]
    exact List.mem_map_of_mem _ (hperm.symm.subset hw)
  have hall : ∀ v ∈ s'.conf_data_vec_,
      v.rmsd = calcRMSD sv.sqrt best.monomer_coord v.monomer_coord cfg.monomer_num_coords_ := by
    intro v hv
    rw [hvec] at hv
    obtain ⟨w, _, hw⟩ := List.mem_map.1 hv
    rw [← hw]
    rfl
  refine ⟨setRmsd sv.sqrt cfg.monomer_num_coords_ best.monomer_coord best,
    rest.map (setRmsd sv.sqrt cfg.monomer_num_coords_ best.monomer_coord), ?_, ?_, ?_, ?_, ?_,
    ?_, ?_⟩
  · rw [hvec]
    rfl
  · exact (print_sorted sv cfg s s' conf_data h).1
  · exact ⟨best :: rest, hperm, hvec⟩
  · intro w hw
    exact hin w (List.mem_append_left _ hw)
  · exact hin _ (List.mem_append_right _ (List.mem_singleton_self _))
  · exact hall
  · exact calcRMSD_self sv.sqrt hsqrt best.monomer_coord cfg.monomer_num_coords_

/-- Claim C5 at the admission of `demoCandidate` into `demoLedgerBefore`: the
best record changes, and both earlier records have their stored RMSD revised
(0 to 2 and 2 to 0). -/
theorem rmsd_relative_to_best_witness :
    ∃ best rest, demoLedgerAfter.conf_data_vec_ = best :: rest ∧
      List.Sorted (fun a b => a.total_energy ≤ b.total_energy) demoLedgerAfter.conf_data_vec_ ∧
      (∃ sorted : List (ConformerData ℚ),
          sorted.Perm (demoLedgerBefore.conf_data_vec_ ++ [releaseChain demoCandidate]) ∧
        demoLedgerAfter.conf_data_vec_ =
          sorted.map (setRmsd demoServicesRoot.sqrt demoConfig.monomer_num_coords_
            best.monomer_coord)) ∧
      (∀ w ∈ demoLedgerBefore.conf_data_vec_,
        setRmsd demoServicesRoot.sqrt demoConfig.monomer_num_coords_ best.monomer_coord w ∈
          demoLedgerAfter.conf_data_vec_) ∧
      setRmsd demoServicesRoot.sqrt demoConfig.monomer_num_coords_ best.monomer_coord
          (releaseChain demoCandidate) ∈ demoLedgerAfter.conf_data_vec_ ∧
      (∀ v ∈ demoLedgerAfter.conf_data_vec_,
        v.rmsd = calcRMSD demoServicesRoot.sqrt best.monomer_coord v.monomer_coord
          demoConfig.monomer_num_coords_) ∧
      best.rmsd = 0 :=
  rmsd_relative_to_best demoServicesRoot demoConfig demoLedgerBefore demoLedgerAfter
    demoCandidate (by with_unfolding_all rfl) (by with_unfolding_all rfl)

/-! ### Search driver -/

theorem innerLoop_top {α ρ γ : Type} [LinearOrderedField α] (sv : Services α ρ γ)
    (cfg : SearchConfig α ρ) (r : ρ) (fuel : Nat) (coords : Nat → α) (rng : γ) :
    innerLoop sv cfg r ⊤ (fuel + 1) coords rng =
      .ok (measureDistance sv.sqrt cfg.step_rot_ cfg.step_translate_
            (sv.SetToAngle r coords (sv.dist rng).1) cfg.head cfg.tail,
          sv.SetToAngle r coords (sv.dist rng).1, (sv.dist rng).2) := by
  simp [innerLoop, WithTop.coe_lt_top]

theorem rotorLoop_total {α ρ γ : Type} [LinearOrderedField α] (sv : Services α ρ γ)
    (cfg : SearchConfig α ρ) (fuel : Nat) (hfuel : 1 ≤ fuel) (rs : List ρ) :
    ∀ (cur_dist : WithTop α) (coords : Nat → α) (rng : γ),
      ∃ res, rotorLoop sv cfg fuel rs cur_dist coords rng = .ok res := by
  obtain ⟨n, rfl⟩ : ∃ n, fuel = n + 1 := ⟨fuel - 1, by omega⟩
  induction rs with
  | nil => intro cur_dist coords rng; exact ⟨_, rfl⟩
  | cons r rs ih =>
    intro cur_dist coords rng
    simp only [rotorLoop, innerLoop_top]
    exact ih _ _ _

theorem admissionStep_of_rejected {α ρ γ : Type} [LinearOrderedField α] (sv : Services α ρ γ)
    (cfg : SearchConfig α ρ) (s : SearchState α γ) (search_index : Nat) (cur_dist : WithTop α)
    (h : isRejected sv cfg s cur_dist = true) : admissionStep sv cfg s search_index cur_dist = .ok s := by
  unfold admissionStep
  by_cases hlt : cur_dist < (cfg.max_distance : WithTop α)
  · simp only [hlt, if_true]
    simp only [isRejected, hlt, decide_True, Bool.not_true, Bool.false_or] at h
    split at h <;> simp_all
  · simp [hlt]

theorem admissionStep_of_not_lt {α ρ γ : Type} [LinearOrderedField α] (sv : Services α ρ γ)
    (cfg : SearchConfig α ρ) (s : SearchState α γ) (search_index : Nat) (cur_dist : WithTop α)
    (h : ¬ cur_dist < (cfg.max_distance : WithTop α)) :
    admissionStep sv cfg s search_index cur_dist = .ok s := by
  simp [admissionStep, h]

theorem admissionStep_of_lt {α ρ γ : Type} [LinearOrderedField α] (sv : Services α ρ γ)
    (cfg : SearchConfig α ρ) (s : SearchState α γ) (search_index : Nat) (cur_dist : WithTop α)
    (h : cur_dist < (cfg.max_distance : WithTop α)) :
    admissionStep sv cfg s search_index cur_dist =
      match isPassingEFilter cfg.energy_filter (sv.generateConformerData s.coords) with
      | .error e => .error e
      | .ok false => .ok s
      | .ok true =>
        print sv cfg s
          (admittedRecord cfg (sv.generateConformerData s.coords) s.coords search_index cur_dist) := by
  simp [admissionStep, h]

theorem print_records {α ρ γ : Type} [LinearOrderedField α] (sv : Services α ρ γ)
    (cfg : SearchConfig α ρ) (s : SearchState α γ) (conf_data : ConformerData α)
    (h : conf_data.chain_coords_present = true) :
    ∃ s', print sv cfg s conf_data = .ok s' ∧
      s'.conf_data_vec_.length = s.conf_data_vec_.length + 1 ∧
      ∃ v ∈ s'.conf_data_vec_, v.index = conf_data.index ∧ v.distance = conf_data.distance ∧
        v.total_energy = conf_data.total_energy ∧ v.monomer_coord = conf_data.monomer_coord := by
  obtain ⟨best, rest, hsort, hprint⟩ := print_of_present sv cfg s conf_data h
  have hperm := stdSort_perm (s.conf_data_vec_ ++ [releaseChain conf_data])
  rw [hsort] at hperm
  refine ⟨_, hprint, ?_, ?_⟩
  · have hlen := hperm.length_eq
    simpa using hlen
  · have hmem : releaseChain conf_data ∈ best :: rest :=
      hperm.symm.subset (by simp)
    exact ⟨setRmsd sv.sqrt cfg.monomer_num_coords_ best.monomer_coord (releaseChain conf_data),
      List.mem_map_of_mem _ hmem, rfl, rfl, rfl, rfl⟩

theorem runLoop_noTrialAdmitted {α ρ γ : Type} [LinearOrderedField α] (sv : Services α ρ γ)
    (cfg : SearchConfig α ρ) (fuel : Nat) (hfuel : 1 ≤ fuel) (remaining : Nat) :
    ∀ (search_index : Nat) (s : SearchState α γ),
      noTrialAdmitted sv cfg fuel remaining s = true →
      ∃ s', runLoop sv cfg fuel remaining search_index s = .ok s' ∧
        s'.files = s.files ∧ s'.conf_data_vec_ = s.conf_data_vec_ := by
  induction remaining with
  | zero => intro search_index s _; exact ⟨s, rfl, rfl, rfl⟩
  | succ n ih =>
    intro search_index s h
    unfold noTrialAdmitted at h
    unfold runLoop trial
    cases hloop : rotorLoop sv cfg fuel cfg.rotors ⊤ s.coords s.rng_ with
    | error e =>
      obtain ⟨res, hres⟩ := rotorLoop_total sv cfg fuel hfuel cfg.rotors ⊤ s.coords s.rng_
      rw [hres] at hloop
      cases hloop
    | ok res =>
      obtain ⟨cur_dist, coords, rng⟩ := res
      simp only [hloop, Bool.and_eq_true] at h
      obtain ⟨hrej, hrest⟩ := h
      simp only [admissionStep_of_rejected sv cfg _ search_index cur_dist hrej]
      obtain ⟨s', hrun, hfiles, hvec⟩ := ih (search_index + 1) _ hrest
      exact ⟨s', hrun, hfiles, hvec⟩

/-- Claim C4, as stated, fails at the boundary: in the search `demoConfig` the
first trial ends its rotor loop with closure distance 1, equal to the largest
admissible distance, the candidate would pass the energy filter and carries its
chain coordinates, and yet the trial records nothing and writes no file. -/
theorem trial_at_max_distance_not_recorded :
    rotorLoop demoServices demoConfig 1 demoConfig.rotors ⊤ demoState.coords demoState.rng_ =
      .ok (((1 : ℚ) : WithTop ℚ), demoState.coords, 1) ∧
    ((1 : ℚ) : WithTop ℚ) ≤ (demoConfig.max_distance : WithTop ℚ) ∧
    isPassingEFilter demoConfig.energy_filter
      (demoServices.generateConformerData demoState.coords) = .ok true ∧
    (demoServices.generateConformerData demoState.coords).chain_coords_present = true ∧
    ∃ s', trial demoServices demoConfig 1 demoState 0 = .ok s' ∧
      s'.conf_data_vec_ = [] ∧ s'.files = [] :=
  ⟨by with_unfolding_all rfl, by with_unfolding_all decide, by with_unfolding_all rfl, rfl,
    _, by with_unfolding_all rfl, by rfl, by rfl⟩

/-- Claim C4, amended.  The outer admission test is strict: a trial whose rotor
loop ends with closure distance `cur_dist < max_distance` materialises the
candidate from the buffer and hands it to the energy filter; if the filter
passes, the trial is the call of `print` on the record with the trial index,
the distance and the copied monomer buffer, and, the chain coordinates being
present, that record is in the ledger afterwards; if the filter fails, or if
`cur_dist` is not below `max_distance` (equality included), nothing is
recorded. -/
theorem trial_admits_below_max_distance {α ρ γ : Type} [LinearOrderedField α]
    (sv : Services α ρ γ) (cfg : SearchConfig α ρ) (fuel : Nat) (s : SearchState α γ)
    (search_index : Nat) (cur_dist : WithTop α) (coords : Nat → α) (rng : γ)
    (hloop : rotorLoop sv cfg fuel cfg.rotors ⊤ s.coords s.rng_ = .ok (cur_dist, coords, rng)) :
    (cur_dist < (cfg.max_distance : WithTop α) →
      isPassingEFilter cfg.energy_filter (sv.generateConformerData coords) = .ok true →
        trial sv cfg fuel s search_index =
          print sv cfg { s with coords := coords, rng_ := rng }
            (admittedRecord cfg (sv.generateConformerData coords) coords search_index cur_dist) ∧
        ((sv.generateConformerData coords).chain_coords_present = true →
          ∃ s', trial sv cfg fuel s search_index = .ok s' ∧
            s'.conf_data_vec_.length = s.conf_data_vec_.length + 1 ∧
            ∃ v ∈ s'.conf_data_vec_, v.index = search_index ∧ v.distance = cur_dist ∧
              v.total_energy = (sv.generateConformerData coords).total_energy ∧
              v.monomer_coord = (List.range cfg.monomer_num_coords_).map coords)) ∧
    (cur_dist < (cfg.max_distance : WithTop α) →
      isPassingEFilter cfg.energy_filter (sv.generateConformerData coords) = .ok false →
        trial sv cfg fuel s search_index = .ok { s with coords := coords, rng_ := rng }) ∧
    (¬ cur_dist < (cfg.max_distance : WithTop α) →
      trial sv cfg fuel s search_index = .ok { s with coords := coords, rng_ := rng }) := by
  have htrial : trial sv cfg fuel s search_index =
      admissionStep sv cfg { s with coords := coords, rng_ := rng } search_index cur_dist := by
    simp [trial, hloop]
  refine ⟨?_, ?_, ?_⟩
  · intro hlt hpass
    have hstep : trial sv cfg fuel s search_index =
        print sv cfg { s with coords := coords, rng_ := rng }
          (admittedRecord cfg (sv.generateConformerData coords) coords search_index
            cur_dist) := by
      rw [htrial, admissionStep_of_lt sv cfg _ search_index cur_dist hlt]
      simp only [hpass]
    refine ⟨hstep, ?_⟩
    intro hpresent
    obtain ⟨s', hprint, hlen, v, hv, h1, h2, h3, h4⟩ :=
      print_records sv cfg { s with coords := coords, rng_ := rng }
        (admittedRecord cfg (sv.generateConformerData coords) coords search_index cur_dist)
        hpresent
    exact ⟨s', hstep.trans hprint, hlen, v, hv, h1, h2, h3, h4⟩
  · intro hlt hfail
    rw [htrial, admissionStep_of_lt sv cfg _ search_index cur_dist hlt]
    simp only [hfail]
  · intro hnot
    rw [htrial, admissionStep_of_not_lt sv cfg _ search_index cur_dist hnot]

/-- The amended C4 at the first trial of `demoConfigWide`: the rotor loop ends
with closure distance 1, below the largest admissible distance 5, the filter
passes, and the trial leaves a ledger of one record with index 0. -/
theorem trial_admits_below_max_distance_witness :
    ∃ s', trial demoServices demoConfigWide 1 demoState 0 = .ok s' ∧
      s'.conf_data_vec_.length = demoState.conf_data_vec_.length + 1 ∧
      ∃ v ∈ s'.conf_data_vec_, v.index = 0 ∧ v.distance = ((1 : ℚ) : WithTop ℚ) ∧
        v.total_energy = (demoServices.generateConformerData demoState.coords).total_energy ∧
        v.monomer_coord =
          (List.range demoConfigWide.monomer_num_coords_).map demoState.coords :=
  ((trial_admits_below_max_distance demoServices demoConfigWide 1 demoState 0
      ((1 : ℚ) : WithTop ℚ) demoState.coords 1 (by with_unfolding_all rfl)).1
    (by with_unfolding_all decide) (by with_unfolding_all rfl)).2 rfl

/-- Claim C8, as stated, fails: the run of `demoConfigTight`, whose ceiling no
candidate meets, admits no trial and returns `true`, and no file
`energy_data.csv` exists afterwards, so in particular none that holds just the
header line. -/
theorem run_zero_admissions_no_summary_table :
    noTrialAdmitted demoServices demoConfigTight 1 demoConfigTight.num_steps demoState = true ∧
    ∃ s', run demoServices demoConfigTight 1 demoState = .ok (true, s') ∧
      readFile s'.files "energy_data.csv" = none ∧
      readFile s'.files "energy_data.csv" ≠ some [csvHeader] :=
  ⟨by with_unfolding_all decide, _, by with_unfolding_all rfl, by rfl, by
    intro h
    cases h⟩

/-- Claim C8, amended.  Zero-admission run: when no trial is admitted, `run`
returns `true` (for every fuel of at least one pass per inner loop), writes no
file at all, so neither `energy_data.csv` nor any `conformer_<index>` file,
and leaves the ledger as it was. -/
theorem run_zero_admissions {α ρ γ : Type} [LinearOrderedField α] (sv : Services α ρ γ)
    (cfg : SearchConfig α ρ) (fuel : Nat) (s : SearchState α γ) (hfuel : 1 ≤ fuel)
    (hnone : noTrialAdmitted sv cfg fuel cfg.num_steps s = true) :
    ∃ s', run sv cfg fuel s = .ok (true, s') ∧ s'.files = s.files ∧
      s'.conf_data_vec_ = s.conf_data_vec_ ∧
      (s.files = [] → ∀ name, readFile s'.files name = none) := by
  obtain ⟨s', hrun, hfiles, hvec⟩ :=
    runLoop_noTrialAdmitted sv cfg fuel hfuel cfg.num_steps 0 s hnone
  refine ⟨s', ?_, hfiles, hvec, ?_⟩
  · simp [run, hrun]
  · intro hempty name
    rw [hfiles, hempty]
    rfl

/-- The amended C8 at the run of `demoConfigTight` from the initial state. -/
theorem run_zero_admissions_witness :
    ∃ s', run demoServices demoConfigTight 1 demoState = .ok (true, s') ∧
      s'.files = demoState.files ∧ s'.conf_data_vec_ = demoState.conf_data_vec_ ∧
      (demoState.files = [] → ∀ name, readFile s'.files name = none) :=
  run_zero_admissions demoServices demoConfigTight 1 demoState (by decide)
    (by with_unfolding_all decide)

/-! ### Acceptance criterion -/

theorem innerLoopLogged_eraseLog {α ρ γ : Type} [LinearOrderedField α] (sv : Services α ρ γ)
    (cfg : SearchConfig α ρ) (r : ρ) (best_dist : WithTop α) (fuel : Nat) :
    ∀ (coords : Nat → α) (rng : γ),
      eraseLog (innerLoopLogged sv cfg r best_dist fuel coords rng) =
        innerLoop sv cfg r best_dist fuel coords rng := by
  induction fuel with
  | zero => intro coords rng; rfl
  | succ n ih =>
    intro coords rng
    simp only [innerLoopLogged, innerLoop]
    split
    · rfl
    · split
      · rfl
      · rw [← ih]
        cases innerLoopLogged sv cfg r best_dist n _ _ with
        | error e => rfl
        | ok res => rfl

theorem innerLoopLogged_top {α ρ γ : Type} [LinearOrderedField α] (sv : Services α ρ γ)
    (cfg : SearchConfig α ρ) (r : ρ) (fuel : Nat) (coords : Nat → α) (rng : γ) :
    innerLoopLogged sv cfg r ⊤ (fuel + 1) coords rng =
      .ok ((measureDistance sv.sqrt cfg.step_rot_ cfg.step_translate_
              (sv.SetToAngle r coords (sv.dist rng).1) cfg.head cfg.tail,
            sv.SetToAngle r coords (sv.dist rng).1, (sv.dist rng).2),
          { angles := [(sv.dist rng).1], uniformDraws := 0, acceptedByExp := false }) := by
  simp [innerLoopLogged, WithTop.coe_lt_top]

theorem rotorLoopLogged_eraseLog {α ρ γ : Type} [LinearOrderedField α] (sv : Services α ρ γ)
    (cfg : SearchConfig α ρ) (fuel : Nat) (rs : List ρ) :
    ∀ (cur_dist : WithTop α) (coords : Nat → α) (rng : γ),
      eraseLog (rotorLoopLogged sv cfg fuel rs cur_dist coords rng) =
        rotorLoop sv cfg fuel rs cur_dist coords rng := by
  induction rs with
  | nil => intro cur_dist coords rng; rfl
  | cons r rs ih =>
    intro cur_dist coords rng
    simp only [rotorLoopLogged, rotorLoop]
    rw [← innerLoopLogged_eraseLog]
    cases innerLoopLogged sv cfg r ⊤ fuel coords rng with
    | error e => rfl
    | ok res =>
      obtain ⟨⟨d, c, g⟩, log⟩ := res
      simp only [eraseLog]
      rw [← ih]
      cases rotorLoopLogged sv cfg fuel rs (d : WithTop α) c g with
      | error e => rfl
      | ok res2 => rfl

theorem rotorLoopLogged_top {α ρ γ : Type} [LinearOrderedField α] (sv : Services α ρ γ)
    (cfg : SearchConfig α ρ) (fuel : Nat) (hfuel : 1 ≤ fuel) (rs : List ρ) :
    ∀ (cur_dist : WithTop α) (coords : Nat → α) (rng : γ),
      ∃ res logs, rotorLoopLogged sv cfg fuel rs cur_dist coords rng = .ok (res, logs) ∧
        logs.map Prod.fst = rs ∧
        ∀ entry ∈ logs, entry.2.angles.length = 1 ∧ entry.2.uniformDraws = 0 ∧
          entry.2.acceptedByExp = false := by
  obtain ⟨n, rfl⟩ : ∃ n, fuel = n + 1 := ⟨fuel - 1, by omega⟩
  induction rs with
  | nil =>
    intro cur_dist coords rng
    exact ⟨_, [], rfl, rfl, by simp⟩
  | cons r rs ih =>
    intro cur_dist coords rng
    obtain ⟨res, logs, hrest, hmap, hall⟩ :=
      ih (measureDistance sv.sqrt cfg.step_rot_ cfg.step_translate_
            (sv.SetToAngle r coords (sv.dist rng).1) cfg.head cfg.tail : α)
        (sv.SetToAngle r coords (sv.dist rng).1) (sv.dist rng).2
    refine ⟨res, (r, (⟨[(sv.dist rng).1], 0, false⟩ : LoopLog α)) :: logs, ?_, ?_, ?_⟩
    · simp only [rotorLoopLogged, innerLoopLogged_top, hrest]
    · simp [hmap]
    · intro entry hentry
      rcases List.mem_cons.1 hentry with h | h
      · subst h
        exact ⟨rfl, rfl, rfl⟩
      · exact hall entry h

/-- The rotor loop of `demoConfigThreeRotors`, evaluated: the three rotors are
taken in order, each is set once, to the angles 0, 1 and 2, no draw of
`one_zero_dist` is made, and the engine ends at 3. -/
theorem rotorLoopLogged_three_rotors :
    ∃ coords, rotorLoopLogged demoServicesNumbered demoConfigThreeRotors 1
        demoConfigThreeRotors.rotors ⊤ demoState.coords demoState.rng_ =
      .ok ((((1 : ℚ) : WithTop ℚ), coords, 3),
        [(0, ⟨[0], 0, false⟩), (1, ⟨[1], 0, false⟩), (2, ⟨[2], 0, false⟩)]) :=
  ⟨_, by with_unfolding_all rfl⟩

/-- Claim C11.  First draw always accepted: with `best_dist` reset to infinity
before the inner loop, the loop for any rotor, from any buffer and engine,
accepts its first drawn angle (whose closure distance is finite), so it ends
after exactly one angle draw, without drawing from `one_zero_dist`, and the
acceptance is decided by the first operand of `||`, never by the `exp` branch;
and the rotor loop of a trial, from any state, runs one inner loop per rotor, in
order, each setting its rotor exactly once.  The loops return for any fuel of at
least one pass. -/
theorem first_draw_always_accepted {α ρ γ : Type} [LinearOrderedField α]
    (sv : Services α ρ γ) (cfg : SearchConfig α ρ) (fuel : Nat) (s : SearchState α γ)
    (hfuel : 1 ≤ fuel) :
    (∀ (r : ρ) (coords : Nat → α) (rng : γ),
      innerLoopLogged sv cfg r ⊤ fuel coords rng =
        .ok ((measureDistance sv.sqrt cfg.step_rot_ cfg.step_translate_
                (sv.SetToAngle r coords (sv.dist rng).1) cfg.head cfg.tail,
              sv.SetToAngle r coords (sv.dist rng).1, (sv.dist rng).2),
            { angles := [(sv.dist rng).1], uniformDraws := 0, acceptedByExp := false }) ∧
      innerLoop sv cfg r ⊤ fuel coords rng =
        .ok (measureDistance sv.sqrt cfg.step_rot_ cfg.step_translate_
              (sv.SetToAngle r coords (sv.dist rng).1) cfg.head cfg.tail,
            sv.SetToAngle r coords (sv.dist rng).1, (sv.dist rng).2)) ∧
    ∃ res logs,
      rotorLoopLogged sv cfg fuel cfg.rotors ⊤ s.coords s.rng_ = .ok (res, logs) ∧
      rotorLoop sv cfg fuel cfg.rotors ⊤ s.coords s.rng_ = .ok res ∧
      logs.map Prod.fst = cfg.rotors ∧
      ∀ entry ∈ logs, entry.2.angles.length = 1 ∧ entry.2.uniformDraws = 0 ∧
        entry.2.acceptedByExp = false := by
  constructor
  · obtain ⟨n, rfl⟩ : ∃ n, fuel = n + 1 := ⟨fuel - 1, by omega⟩
    intro r coords rng
    exact ⟨innerLoopLogged_top sv cfg r n coords rng, innerLoop_top sv cfg r n coords rng⟩
  · obtain ⟨res, logs, hlogged, hmap, hall⟩ :=
      rotorLoopLogged_top sv cfg fuel hfuel cfg.rotors ⊤ s.coords s.rng_
    refine ⟨res, logs, hlogged, ?_, hmap, hall⟩
    rw [← rotorLoopLogged_eraseLog, hlogged]
    rfl

/-- Claim C11 at the first trial of `demoConfigThreeRotors`. -/
theorem first_draw_always_accepted_witness :
    ∃ res logs,
      rotorLoopLogged demoServicesNumbered demoConfigThreeRotors 1
        demoConfigThreeRotors.rotors ⊤ demoState.coords demoState.rng_ = .ok (res, logs) ∧
      rotorLoop demoServicesNumbered demoConfigThreeRotors 1
        demoConfigThreeRotors.rotors ⊤ demoState.coords demoState.rng_ = .ok res ∧
      logs.map Prod.fst = demoConfigThreeRotors.rotors ∧
      ∀ entry ∈ logs, entry.2.angles.length = 1 ∧ entry.2.uniformDraws = 0 ∧
        entry.2.acceptedByExp = false :=
  (first_draw_always_accepted demoServicesNumbered demoConfigThreeRotors 1 demoState
    (by decide)).2

end PNAB
